import Mathlib

/-!
oureadb, package `geodata`, file `index/geodata/tools.go`

A shallow embedding of the conversion functions of package `geodata`
(GeoJSON feature <-> `GeoData`, and `GeoData` -> S2 cell union) together with
the properties stated about them.

Conventions of the embedding

* A Go `float64` is its IEEE-754 binary64 bit pattern (`Float64`).  The only
  float operation the package performs itself is the conversion `float64(n)`
  of an `int`, embedded exactly (`Float64.ofInt`).  Everything the golang/geo
  library computes on floats is a field of `S2Kernel`.
* A Go map is `GoMap`: either the nil map or a list of entries, listed in the
  order a `range` loop visits them.  Reading a nil map behaves like reading an
  empty one, writing to it is a run-time panic.
* A Go slice is a list; the nil slice is `[]`.
* A call either returns or panics (`Outcome`).  Pointers `f` and `gd` passed to
  the functions are non-nil; `gd.Geometry` may be nil (`none`).
* Functions that call the loop builder, the region coverer, or one another
  also return the list of those calls, in order (`Traced`).
* The two serializers are embedded up to their final `MarshalJSON()` call, which
  belongs to go-geom: their result is the value handed to the marshaller.
-/

namespace Geodata

/-! ## Values -/

/-- Go `float64`, as the IEEE-754 binary64 bit pattern. -/
structure Float64 where
  bits : Nat
  deriving DecidableEq, Repr

/-- Position of the highest set bit of `a` (0 for `a ≤ 1`), for `a < 2 ^ fuel`. -/
def ilog2 : Nat → Nat → Nat
  | 0, _ => 0
  | fuel + 1, a => if a < 2 then 0 else ilog2 fuel (a / 2) + 1

/-- Magnitude `a` rounded to binary64 (round to nearest, ties to even), with the
given sign bit.  Exact for `a < 2 ^ 64`, the range of a Go `int`. -/
def Float64.ofMagnitude (neg : Bool) (a : Nat) : Float64 :=
  if a = 0 then ⟨0⟩
  else
    let e := ilog2 64 a
    let sign := if neg then 2 ^ 63 else 0
    if e ≤ 52 then
      ⟨sign + (e + 1023) * 2 ^ 52 + (a * 2 ^ (52 - e) - 2 ^ 52)⟩
    else
      let sh := e - 52
      let q := a / 2 ^ sh
      let r := a % 2 ^ sh
      let half := 2 ^ (sh - 1)
      let q1 := if half < r ∨ (r = half ∧ q % 2 = 1) then q + 1 else q
      if q1 = 2 ^ 53 then ⟨sign + (e + 1 + 1023) * 2 ^ 52⟩
      else ⟨sign + (e + 1023) * 2 ^ 52 + (q1 - 2 ^ 52)⟩

/-- The Go conversion `float64(n)` of an `int` `n`. -/
def Float64.ofInt (n : Int) : Float64 :=
  Float64.ofMagnitude (decide (n < 0)) n.natAbs

/-- The dynamic value of a Go `interface{}` as the type switch of
`PropertiesToGeoData` sees it: one of the five cases it names, or a value of
any other dynamic type, identified by the name `%T` prints for it. -/
inductive Any where
  | bool (tv : Bool)
  | int (tv : Int)
  | string (tv : String)
  | float64 (tv : Float64)
  | nil
  | other (typeName : String)
  deriving DecidableEq, Repr

/-- The `Kind` oneof of `structpb.Value`; `unset` is the nil interface.  The
payload of a struct or list value is never read by this package. -/
inductive Kind where
  | NullValue
  | NumberValue (NumberValue : Float64)
  | StringValue (StringValue : String)
  | BoolValue (BoolValue : Bool)
  | StructValue
  | ListValue
  | unset
  deriving DecidableEq, Repr

/-- The message `structpb.Value`. -/
structure Value where
  Kind : Kind
  deriving DecidableEq, Repr

/-! ## Go maps -/

/-- Go `map[string]α`. -/
inductive GoMap (α : Type) where
  | nil
  | map (entries : List (String × α))
  deriving DecidableEq, Repr

/-- Value stored under `k` in a list of entries. -/
def lookupEntries {α : Type} (k : String) : List (String × α) → Option α
  | [] => none
  | (k1, v) :: es => if k1 = k then some v else lookupEntries k es

/-- Entries after the assignment `m[k] = v`. -/
def storeEntries {α : Type} (k : String) (v : α) (es : List (String × α)) : List (String × α) :=
  (k, v) :: es.filter (fun e => !decide (e.1 = k))

namespace GoMap

/-- The entries a `range` loop visits, in visiting order. -/
def range {α : Type} : GoMap α → List (String × α)
  | nil => []
  | map es => es

/-- The read `m[k]` (with the `ok` flag as the option). -/
def lookup {α : Type} (m : GoMap α) (k : String) : Option α :=
  lookupEntries k m.range

/-- The assignment `m[k] = v`; `none` is the panic of a write to a nil map. -/
def store {α : Type} (m : GoMap α) (k : String) (v : α) : Option (GoMap α) :=
  match m with
  | nil => none
  | map es => some (map (storeEntries k v es))

/-- The keys of a map are pairwise distinct. -/
def WF {α : Type} (m : GoMap α) : Prop :=
  (m.range.map Prod.fst).Nodup

instance {α : Type} (m : GoMap α) : Decidable m.WF := by
  unfold WF; infer_instance

end GoMap

/-! ## Geometries, features, GeoData -/

/-- Modelled from the spec: the geometry kind enumeration `Geometry_Type` of the
generated protobuf code (not part of the sources at hand): `POINT`, `POLYGON`,
`MULTIPOLYGON`, exactly these three.  A protobuf enum field can hold any other
number, which is `unknown`. -/
inductive Geometry_Type where
  | Geometry_POINT
  | Geometry_POLYGON
  | Geometry_MULTIPOLYGON
  | unknown (tag : Int)
  deriving DecidableEq, Repr

/-- Modelled from the spec: the message `Geometry` of the generated protobuf
code, with the fields the package uses. -/
inductive Geometry where
  | mk (Type_ : Geometry_Type) (Coordinates : List Float64) (Geometries : List Geometry)

namespace Geometry

/-- Field `Type`. -/
def Type_ : Geometry → Geometry_Type
  | mk t _ _ => t

/-- Field `Coordinates`. -/
def Coordinates : Geometry → List Float64
  | mk _ c _ => c

/-- Field `Geometries`. -/
def Geometries : Geometry → List Geometry
  | mk _ _ gs => gs

end Geometry

/-- Modelled from the spec: the message `GeoData` of the generated protobuf
code: one geometry (a pointer, nil until set) and the attribute map. -/
structure GeoData where
  Geometry : Option Geometry
  Properties : GoMap (Option Value)

/-- A geometry of go-geom behind the interface `geom.T`. -/
inductive GeomT where
  | Point (flatCoords : List Float64)
  | LineString (flatCoords : List Float64)
  | Polygon (flatCoords : List Float64) (ends : List Nat)
  | MultiPolygon (polygons : List (List Float64 × List Nat))
  | other (typeName : String)
  deriving DecidableEq, Repr

/-- What `%T` prints for a `geom.T`; `none` is the nil interface. -/
def GeomT.typeName : Option GeomT → String
  | none => "<nil>"
  | some (GeomT.Point _) => "*geom.Point"
  | some (GeomT.LineString _) => "*geom.LineString"
  | some (GeomT.Polygon _ _) => "*geom.Polygon"
  | some (GeomT.MultiPolygon _) => "*geom.MultiPolygon"
  | some (GeomT.other n) => n

/-- The struct `geojson.Feature`. -/
structure Feature where
  ID : String
  Geometry : Option GeomT
  Properties : GoMap Any
  deriving DecidableEq, Repr

/-- The struct `geojson.FeatureCollection`. -/
structure FeatureCollection where
  Features : List Feature
  deriving DecidableEq, Repr

/-! ## Errors, panics, outcomes -/

/-- Error values built by the package. -/
inductive Error where
  | unsupportedProperty (key : String) (typeName : String)
  | unsupportedGeoType (typeName : String)
  | new (msg : String)
  | wrap (cause : Error) (msg : String)
  deriving DecidableEq, Repr

/-- Run-time panics. -/
inductive Panic where
  | nilMapWrite
  | indexOutOfRange (index : Nat) (len : Nat)
  | nilDereference
  deriving DecidableEq, Repr

/-- A call returns a value or panics. -/
inductive Outcome (α : Type) where
  | ret (a : α)
  | panic (p : Panic)
  deriving Repr

/-! ## The golang/geo kernel -/

/-- The struct `s2.LatLng` (two angles). -/
structure LatLng where
  Lat : Float64
  Lng : Float64
  deriving DecidableEq, Repr

/-- The struct `s2.Point` (a vector of the unit sphere). -/
structure Point where
  X : Float64
  Y : Float64
  Z : Float64
  deriving DecidableEq, Repr

/-- The struct `s2.Loop`, which its vertex sequence determines. -/
structure Loop where
  vertices : List Point
  deriving DecidableEq, Repr

/-- The struct `s2.Rect` (a latitude interval and a longitude interval). -/
structure Rect where
  LatLo : Float64
  LatHi : Float64
  LngLo : Float64
  LngHi : Float64
  deriving DecidableEq, Repr

/-- The values passed as `s2.Region` by this package. -/
inductive Region where
  | loop (l : Loop)
  | rect (r : Rect)
  deriving DecidableEq, Repr

/-- The struct `s2.RegionCoverer`. -/
structure RegionCoverer where
  MinLevel : Int
  MaxLevel : Int
  LevelMod : Int
  MaxCells : Int
  deriving DecidableEq, Repr

/-- Go `s2.CellID`, a `uint64`. -/
abbrev CellID := Nat

/-- Go `s2.CellUnion`, a slice of cell ids. -/
abbrev CellUnion := List CellID

/-- The functions of golang/geo the package calls, taken as given. -/
structure S2Kernel where
  LatLngFromDegrees : Float64 → Float64 → LatLng
  CellIDFromLatLng : LatLng → CellID
  Parent : CellID → Int → CellID
  PointFromLatLng : LatLng → Point
  IsEmpty : Loop → Bool
  IsFull : Loop → Bool
  ContainsOrigin : Loop → Bool
  RectBound : Loop → Rect
  Covering : RegionCoverer → Region → CellUnion

/-- One recorded call with its arguments. -/
inductive Call where
  | PropertiesToGeoData
  | GeoToGeoData (g : Option GeomT)
  | LoopFenceFromCoordinates (coords : List Float64)
  | Covering (coverer : RegionCoverer) (region : Region)
  deriving DecidableEq, Repr

/-- A result together with the calls made to obtain it, in order. -/
structure Traced (α : Type) where
  calls : List Call
  out : α

/-! ## Package `loop` -/

/-- Consecutive pairs of a flat coordinate sequence; a trailing single value
is dropped. -/
def coordinatePairs : List Float64 → List (Float64 × Float64)
  | x :: y :: rest => (x, y) :: coordinatePairs rest
  | _ => []

/-- Modelled from the spec: `loop.LoopFenceFromPoints` (file `loop/loop.go` is
not part of the sources at hand).  "Assemble a Loop from the resulting ordered
point sequence, preserving input order - this component does not correct
orientation." -/
def LoopFenceFromPoints (points : List Point) : Loop :=
  Loop.mk points

/-- Modelled from the spec: `loop.LoopFenceFromCoordinates` (file
`loop/loop.go` is not part of the sources at hand).  "Interpret consecutive
pairs as (longitude, latitude) in degrees, convert each to a point on the unit
sphere, and assemble a Loop from the resulting ordered point sequence,
preserving input order." -/
def LoopFenceFromCoordinates (K : S2Kernel) (coords : List Float64) : Loop :=
  LoopFenceFromPoints
    ((coordinatePairs coords).map (fun p => K.PointFromLatLng (K.LatLngFromDegrees p.2 p.1)))

/-! ## Package `geodata`, file `tools.go` -/

/-- Go `GeoToGeoData`: the updated `gd` and the returned error. -/
def GeoToGeoData (g : Option GeomT) (gd : GeoData) : GeoData × Option Error :=
  match g with
  | some (GeomT.Point flatCoords) =>
    (GeoData.mk (some (Geometry.mk Geometry_Type.Geometry_POINT flatCoords [])) gd.Properties, none)
  | _ => (gd, some (Error.unsupportedGeoType (GeomT.typeName g)))

/-- The statement `gd.Properties[k] = v`, then the rest of the loop `next`. -/
def assignProperty (k : String) (v : Value) (gd : GeoData)
    (next : GeoData → Outcome (GeoData × Option Error)) : Outcome (GeoData × Option Error) :=
  match gd.Properties.store k (some v) with
  | some m => next (GeoData.mk gd.Geometry m)
  | none => Outcome.panic Panic.nilMapWrite

/-- The `range` loop of `PropertiesToGeoData` over the entries still to visit. -/
def PropertiesToGeoData.loop : List (String × Any) → GeoData → Outcome (GeoData × Option Error)
  | [], gd => Outcome.ret (gd, none)
  | (k, vi) :: rest, gd =>
    match vi with
    | Any.bool tv => assignProperty k ⟨Kind.BoolValue tv⟩ gd (PropertiesToGeoData.loop rest)
    | Any.int tv => assignProperty k ⟨Kind.NumberValue (Float64.ofInt tv)⟩ gd (PropertiesToGeoData.loop rest)
    | Any.string tv => assignProperty k ⟨Kind.StringValue tv⟩ gd (PropertiesToGeoData.loop rest)
    | Any.float64 tv => assignProperty k ⟨Kind.NumberValue tv⟩ gd (PropertiesToGeoData.loop rest)
    | Any.nil => PropertiesToGeoData.loop rest gd
    | Any.other typeName => Outcome.ret (gd, some (Error.unsupportedProperty k typeName))

/-- Go `PropertiesToGeoData`: the updated `gd` and the returned error. -/
def PropertiesToGeoData (f : Feature) (gd : GeoData) : Outcome (GeoData × Option Error) :=
  PropertiesToGeoData.loop f.Properties.range gd

/-- Go `GeoJSONFeatureToGeoData`: the updated `gd` and the returned error. -/
def GeoJSONFeatureToGeoData (f : Feature) (gd : GeoData) :
    Traced (Outcome (GeoData × Option Error)) :=
  match PropertiesToGeoData f gd with
  | Outcome.panic p => ⟨[Call.PropertiesToGeoData], Outcome.panic p⟩
  | Outcome.ret (gd1, some err) =>
    ⟨[Call.PropertiesToGeoData],
      Outcome.ret (gd1, some (Error.wrap err "while converting feature properties to GeoData"))⟩
  | Outcome.ret (gd1, none) =>
    match GeoToGeoData f.Geometry gd1 with
    | (gd2, some err) =>
      ⟨[Call.PropertiesToGeoData, Call.GeoToGeoData f.Geometry],
        Outcome.ret (gd2, some (Error.wrap err "while converting feature to GeoData"))⟩
    | (gd2, none) =>
      ⟨[Call.PropertiesToGeoData, Call.GeoToGeoData f.Geometry], Outcome.ret (gd2, none)⟩

/-- The degeneracy test `l.IsEmpty() || l.IsFull() || l.ContainsOrigin()`. -/
def degenerate (K : S2Kernel) (l : Loop) : Bool :=
  K.IsEmpty l || K.IsFull l || K.ContainsOrigin l

/-- The `range` loop of the `MULTIPOLYGON` case over the rings still to visit,
from the cell union and the calls accumulated so far. -/
def GeoDataToFlatCellUnion.rings (K : S2Kernel) (coverer : RegionCoverer) :
    List Geometry → CellUnion → List Call → Traced (CellUnion × Option Error)
  | [], cu, calls => ⟨calls, (cu, none)⟩
  | g :: rest, cu, calls =>
    if g.Coordinates.length < 6 then
      ⟨calls, ([], some (Error.new "invalid polygons too few coordinates"))⟩
    else if g.Coordinates.length % 2 ≠ 0 then
      ⟨calls, ([], some (Error.new "invalid polygons odd coordinates number"))⟩
    else
      let l := LoopFenceFromCoordinates K g.Coordinates
      if degenerate K l then
        ⟨calls ++ [Call.LoopFenceFromCoordinates g.Coordinates],
          ([], some (Error.new "invalid polygons"))⟩
      else
        GeoDataToFlatCellUnion.rings K coverer rest
          (cu ++ K.Covering coverer (Region.rect (K.RectBound l)))
          (calls ++ [Call.LoopFenceFromCoordinates g.Coordinates,
            Call.Covering coverer (Region.rect (K.RectBound l))])

/-- Go `GeoDataToFlatCellUnion`: the returned pair, or a panic. -/
def GeoDataToFlatCellUnion (K : S2Kernel) (gd : GeoData) (coverer : RegionCoverer) :
    Traced (Outcome (CellUnion × Option Error)) :=
  match gd.Geometry with
  | none => ⟨[], Outcome.panic Panic.nilDereference⟩
  | some geo =>
    match geo.Type_ with
    | Geometry_Type.Geometry_POINT =>
      match geo.Coordinates with
      | c0 :: c1 :: _ =>
        ⟨[], Outcome.ret
          ([K.Parent (K.CellIDFromLatLng (K.LatLngFromDegrees c1 c0)) coverer.MinLevel], none)⟩
      | cs => ⟨[], Outcome.panic (Panic.indexOutOfRange 1 cs.length)⟩
    | Geometry_Type.Geometry_POLYGON =>
      if geo.Coordinates.length < 6 then
        ⟨[], Outcome.ret ([], some (Error.new "invalid polygons too few coordinates"))⟩
      else if geo.Coordinates.length % 2 ≠ 0 then
        ⟨[], Outcome.ret ([], some (Error.new "invalid polygons odd coordinates number"))⟩
      else
        let l := LoopFenceFromCoordinates K geo.Coordinates
        if degenerate K l then
          ⟨[Call.LoopFenceFromCoordinates geo.Coordinates],
            Outcome.ret ([], some (Error.new "invalid polygons"))⟩
        else
          ⟨[Call.LoopFenceFromCoordinates geo.Coordinates, Call.Covering coverer (Region.loop l)],
            Outcome.ret (K.Covering coverer (Region.loop l), none)⟩
    | Geometry_Type.Geometry_MULTIPOLYGON =>
      let r := GeoDataToFlatCellUnion.rings K coverer geo.Geometries [] []
      ⟨r.calls, Outcome.ret r.out⟩
    | Geometry_Type.unknown _ => ⟨[], Outcome.ret ([], some (Error.new "unsupported data type"))⟩

/-- The `range` loop of `PropertiesToJSONMap` over the entries still to visit,
from the entries of `res` so far. -/
def PropertiesToJSONMap.loop : List (String × Option Value) → List (String × Any) →
    Outcome (GoMap Any)
  | [], res => Outcome.ret (GoMap.map res)
  | (_, none) :: _, _ => Outcome.panic Panic.nilDereference
  | (k, some v) :: rest, res =>
    match v.Kind with
    | Kind.NumberValue x => PropertiesToJSONMap.loop rest (storeEntries k (Any.float64 x) res)
    | Kind.StringValue x => PropertiesToJSONMap.loop rest (storeEntries k (Any.string x) res)
    | Kind.BoolValue x => PropertiesToJSONMap.loop rest (storeEntries k (Any.bool x) res)
    | _ => PropertiesToJSONMap.loop rest res

/-- Go `PropertiesToJSONMap`. -/
def PropertiesToJSONMap (src : GoMap (Option Value)) : Outcome (GoMap Any) :=
  PropertiesToJSONMap.loop src.range []

/-- The geometry `ToGeoJSONFeatureCollection` builds for a stored geometry;
`none` is a feature geometry left nil. -/
def featureGeometry (geo : Geometry) : Option GeomT :=
  match geo.Type_ with
  | Geometry_Type.Geometry_POINT => some (GeomT.Point geo.Coordinates)
  | Geometry_Type.Geometry_POLYGON =>
    some (GeomT.Polygon geo.Coordinates [geo.Coordinates.length])
  | Geometry_Type.Geometry_MULTIPOLYGON =>
    some (GeomT.MultiPolygon
      (geo.Geometries.map (fun poly => (poly.Coordinates, [poly.Coordinates.length]))))
  | Geometry_Type.unknown _ => none

/-- The `range` loop of `ToGeoJSONFeatureCollection` over the elements still to
visit, from the features appended so far. -/
def ToGeoJSONFeatureCollection.loop : List GeoData → List Feature → Outcome FeatureCollection
  | [], fs => Outcome.ret ⟨fs⟩
  | g :: rest, fs =>
    match g.Geometry with
    | none => Outcome.panic Panic.nilDereference
    | some geo =>
      match PropertiesToJSONMap g.Properties with
      | Outcome.panic p => Outcome.panic p
      | Outcome.ret props =>
        ToGeoJSONFeatureCollection.loop rest (fs ++ [Feature.mk "" (featureGeometry geo) props])

/-- Go `ToGeoJSONFeatureCollection`, up to the final `fc.MarshalJSON()`: the
feature collection handed to the marshaller. -/
def ToGeoJSONFeatureCollection (geos : List GeoData) : Outcome FeatureCollection :=
  ToGeoJSONFeatureCollection.loop geos []

/-- The `range` loop of `PointsToGeoJSONPolyLines` over the elements still to
visit, from the flat coordinates appended so far: the final coordinates, or
the error returned. -/
def PointsToGeoJSONPolyLines.loop : List GeoData → List Float64 →
    Outcome (List Float64 ⊕ Error)
  | [], flatCoords => Outcome.ret (Sum.inl flatCoords)
  | g :: rest, flatCoords =>
    match g.Geometry with
    | none => Outcome.panic Panic.nilDereference
    | some geo =>
      match geo.Type_ with
      | Geometry_Type.Geometry_POINT =>
        PointsToGeoJSONPolyLines.loop rest (flatCoords ++ geo.Coordinates)
      | _ => Outcome.ret (Sum.inr (Error.new "unsupported geometry"))

/-- Go `PointsToGeoJSONPolyLines`, up to the final `f.MarshalJSON()`: the
feature handed to the marshaller, or the error returned before. -/
def PointsToGeoJSONPolyLines (geos : List GeoData) : Outcome (Feature ⊕ Error) :=
  match geos with
  | [] => Outcome.ret (Sum.inl (Feature.mk "" none GoMap.nil))
  | g0 :: _ =>
    match PointsToGeoJSONPolyLines.loop geos [] with
    | Outcome.panic p => Outcome.panic p
    | Outcome.ret (Sum.inr err) => Outcome.ret (Sum.inr err)
    | Outcome.ret (Sum.inl flatCoords) =>
      match PropertiesToJSONMap g0.Properties with
      | Outcome.panic p => Outcome.panic p
      | Outcome.ret props =>
        Outcome.ret (Sum.inl (Feature.mk "" (some (GeomT.LineString flatCoords)) props))

/-! ## Auxiliary notions used in the statements -/

/-- A sequence of conditional map assignments: each visited entry `(k, b)` with
`conv b = some a` performs `m[k] = a`, any other entry performs nothing. -/
def applyStores {α β : Type} (conv : β → Option α) :
    List (String × β) → List (String × α) → List (String × α)
  | [], acc => acc
  | (k, b) :: rest, acc =>
    match conv b with
    | some a => applyStores conv rest (storeEntries k a acc)
    | none => applyStores conv rest acc

/-- The attribute value the type switch of `PropertiesToGeoData` stores for a
property value, `none` where it stores nothing. -/
def storedValue : Any → Option (Option Value)
  | Any.bool tv => some (some ⟨Kind.BoolValue tv⟩)
  | Any.int tv => some (some ⟨Kind.NumberValue (Float64.ofInt tv)⟩)
  | Any.string tv => some (some ⟨Kind.StringValue tv⟩)
  | Any.float64 tv => some (some ⟨Kind.NumberValue tv⟩)
  | Any.nil => none
  | Any.other _ => none

/-- The value the type switch of `PropertiesToJSONMap` stores for an attribute
value, `none` where it stores nothing. -/
def jsonValue : Option Value → Option Any
  | some ⟨Kind.NumberValue x⟩ => some (Any.float64 x)
  | some ⟨Kind.StringValue x⟩ => some (Any.string x)
  | some ⟨Kind.BoolValue x⟩ => some (Any.bool x)
  | _ => none

/-- A property value has one of the types of the type switch (nil included). -/
def Any.supported : Any → Bool
  | Any.other _ => false
  | _ => true

/-- A property value is a bool, a number (`int` or `float64`) or a string. -/
def Any.scalar : Any → Bool
  | Any.bool _ => true
  | Any.int _ => true
  | Any.string _ => true
  | Any.float64 _ => true
  | _ => false

/-- A property value with an `int` widened to the `float64` of its conversion. -/
def Any.widen : Any → Any
  | Any.int tv => Any.float64 (Float64.ofInt tv)
  | v => v

/-- A small instance of the kernel, to evaluate the functions on examples. -/
def sampleKernel : S2Kernel where
  LatLngFromDegrees lat lng := ⟨lat, lng⟩
  CellIDFromLatLng ll := ll.Lat.bits + 2 * ll.Lng.bits
  Parent c level := c + 1000 * level.toNat
  PointFromLatLng ll := ⟨ll.Lat, ll.Lng, ⟨0⟩⟩
  IsEmpty l := l.vertices.isEmpty
  IsFull _ := false
  ContainsOrigin l := l.vertices.any (fun p => decide (p.X.bits = 0 ∧ p.Y.bits = 0))
  RectBound l := ⟨⟨0⟩, ⟨l.vertices.length⟩, ⟨0⟩, ⟨l.vertices.length⟩⟩
  Covering coverer region :=
    match region with
    | Region.loop l => l.vertices.map (fun p => p.X.bits + coverer.MinLevel.toNat)
    | Region.rect r => [r.LatHi.bits, coverer.MinLevel.toNat]

/-- A ring passes the checks of the `MULTIPOLYGON` loop: at least 6 coordinates,
an even number of them, and a loop that is not degenerate. -/
def validRing (K : S2Kernel) (g : Geometry) : Prop :=
  6 ≤ g.Coordinates.length ∧ g.Coordinates.length % 2 = 0 ∧
    degenerate K (LoopFenceFromCoordinates K g.Coordinates) = false

instance (K : S2Kernel) (g : Geometry) : Decidable (validRing K g) := by
  unfold validRing; infer_instance

/-- The coordinates read as `g.Geometry.Coordinates` from a GeoData that has a
geometry (the nil slice for one that has none). -/
def GeoData.coordinates (g : GeoData) : List Float64 :=
  match g.Geometry with
  | some geo => geo.Coordinates
  | none => []

/-- The rational number a finite binary64 bit pattern stands for (0 for the
infinities and NaN): sign bit 63, biased exponent in bits 52 to 62, fraction in
bits 0 to 51. -/
def Float64.toRat (x : Float64) : ℚ :=
  let e : Nat := x.bits / 2 ^ 52 % 2 ^ 11
  let m : Nat := x.bits % 2 ^ 52
  let num : Nat := (2 ^ 52 + m) * 2 ^ e
  let mag : ℚ :=
    if e = 0 then (m : ℚ) / 2 ^ 1074
    else if e = 2047 then 0
    else (num : ℚ) / 2 ^ 1075
  if x.bits / 2 ^ 63 % 2 = 1 then -mag else mag

/-! ## Lemmas on maps -/

theorem lookupEntries_filter_ne {α : Type} (k k1 : String) (h : k ≠ k1)
    (es : List (String × α)) :
    lookupEntries k1 (es.filter (fun e => !decide (e.1 = k))) = lookupEntries k1 es := by
  induction es with
  | nil => rfl
  | cons e es ih =>
    obtain ⟨k2, v⟩ := e
    by_cases h2 : k2 = k
    · subst h2
      simp [List.filter, lookupEntries, h, ih]
    · simp [List.filter, lookupEntries, h2, ih]

theorem lookupEntries_storeEntries {α : Type} (k k1 : String) (v : α)
    (es : List (String × α)) :
    lookupEntries k1 (storeEntries k v es) = if k = k1 then some v else lookupEntries k1 es := by
  unfold storeEntries
  by_cases h : k = k1
  · simp [lookupEntries, h]
  · simp [lookupEntries, h, lookupEntries_filter_ne k k1 h]

theorem lookupEntries_eq_none {α : Type} (k : String) (es : List (String × α))
    (h : k ∉ es.map Prod.fst) : lookupEntries k es = none := by
  induction es with
  | nil => rfl
  | cons e es ih =>
    obtain ⟨k2, v⟩ := e
    simp only [List.map_cons, List.mem_cons, not_or] at h
    have h2 : ¬ k2 = k := fun c => h.1 c.symm
    simp [lookupEntries, h2, ih h.2]

theorem mem_of_lookupEntries {α : Type} (k : String) (v : α) (es : List (String × α))
    (h : lookupEntries k es = some v) : (k, v) ∈ es := by
  induction es with
  | nil => simp [lookupEntries] at h
  | cons e es ih =>
    obtain ⟨k2, v2⟩ := e
    by_cases h2 : k2 = k
    · simp [lookupEntries, h2] at h
      simp [h2, h]
    · simp [lookupEntries, h2] at h
      exact List.mem_cons_of_mem _ (ih h)

theorem lookupEntries_of_mem {α : Type} (k : String) (v : α) (es : List (String × α))
    (hnd : (es.map Prod.fst).Nodup) (h : (k, v) ∈ es) : lookupEntries k es = some v := by
  induction es with
  | nil => simp at h
  | cons e es ih =>
    obtain ⟨k2, v2⟩ := e
    simp only [List.map_cons, List.nodup_cons] at hnd
    rcases List.mem_cons.mp h with h1 | h1
    · cases h1
      simp [lookupEntries]
    · have hk : k ∈ es.map Prod.fst := List.mem_map.mpr ⟨(k, v), h1, rfl⟩
      have h2 : ¬ k2 = k := fun c => hnd.1 (c ▸ hk)
      simp [lookupEntries, h2, ih hnd.2 h1]

theorem nodup_keys_storeEntries {α : Type} (k : String) (v : α) (es : List (String × α))
    (h : (es.map Prod.fst).Nodup) : ((storeEntries k v es).map Prod.fst).Nodup := by
  unfold storeEntries
  rw [List.map_cons, List.nodup_cons]
  constructor
  · intro hk
    obtain ⟨e, he, hek⟩ := List.mem_map.mp hk
    have := (List.mem_filter.mp he).2
    simp at this
    exact this hek
  · exact (List.filter_sublist es).map Prod.fst |>.nodup h

theorem nodup_keys_applyStores {α β : Type} (conv : β → Option α) :
    ∀ (es : List (String × β)) (acc : List (String × α)),
      (acc.map Prod.fst).Nodup → ((applyStores conv es acc).map Prod.fst).Nodup := by
  intro es
  induction es with
  | nil => intro acc h; exact h
  | cons e es ih =>
    intro acc h
    obtain ⟨k, b⟩ := e
    unfold applyStores
    cases hc : conv b with
    | none => exact ih acc h
    | some a => exact ih _ (nodup_keys_storeEntries k a acc h)

theorem mem_applyStores {α β : Type} (conv : β → Option α) :
    ∀ (es : List (String × β)) (acc : List (String × α)) (e : String × α),
      e ∈ applyStores conv es acc → e ∈ acc ∨ ∃ b, (e.1, b) ∈ es ∧ conv b = some e.2 := by
  intro es
  induction es with
  | nil => intro acc e h; exact Or.inl h
  | cons e0 es ih =>
    intro acc e h
    obtain ⟨k, b⟩ := e0
    unfold applyStores at h
    cases hc : conv b with
    | none =>
      rw [hc] at h
      rcases ih acc e h with h1 | ⟨b1, h1, h2⟩
      · exact Or.inl h1
      · exact Or.inr ⟨b1, List.mem_cons_of_mem _ h1, h2⟩
    | some a =>
      rw [hc] at h
      rcases ih _ e h with h1 | ⟨b1, h1, h2⟩
      · unfold storeEntries at h1
        rcases List.mem_cons.mp h1 with h3 | h3
        · refine Or.inr ⟨b, ?_, ?_⟩
          · rw [h3]; exact List.mem_cons_self _ _
          · rw [h3]; exact hc
        · exact Or.inl (List.mem_filter.mp h3).1
      · exact Or.inr ⟨b1, List.mem_cons_of_mem _ h1, h2⟩

theorem lookupEntries_applyStores {α β : Type} (conv : β → Option α) :
    ∀ (es : List (String × β)) (acc : List (String × α)) (k : String),
      (es.map Prod.fst).Nodup →
      lookupEntries k (applyStores conv es acc) =
        ((lookupEntries k es).bind conv).or (lookupEntries k acc) := by
  intro es
  induction es with
  | nil => intro acc k _; simp [applyStores, lookupEntries]
  | cons e es ih =>
    intro acc k hnd
    obtain ⟨k1, b⟩ := e
    simp only [List.map_cons, List.nodup_cons] at hnd
    unfold applyStores
    by_cases hk : k1 = k
    · subst hk
      have hnone : lookupEntries k1 es = none := lookupEntries_eq_none k1 es hnd.1
      cases hc : conv b with
      | none => simp [ih acc k1 hnd.2, hnone, lookupEntries, hc]
      | some a =>
        simp [ih _ k1 hnd.2, hnone, lookupEntries, hc, lookupEntries_storeEntries]
    · cases hc : conv b with
      | none => simp [ih acc k hnd.2, lookupEntries, hk]
      | some a =>
        rw [ih _ k hnd.2, lookupEntries_storeEntries]
        simp [lookupEntries, hk]

/-! ## Lemmas on the two property loops -/

theorem supported_eq_false_iff (v : Any) :
    v.supported = false ↔ ∃ t, v = Any.other t := by
  cases v <;> simp [Any.supported]

theorem supported_of_scalar (v : Any) (h : v.scalar = true) : v.supported = true := by
  cases v <;> simp_all [Any.supported, Any.scalar]

/-- On an allocated map and with supported values only, the loop of
`PropertiesToGeoData` performs the assignments of `storedValue` and returns no
error. -/
theorem PropertiesToGeoData.loop_supported (geo : Option Geometry) :
    ∀ (es : List (String × Any)) (acc : List (String × Option Value)),
      (∀ e ∈ es, e.2.supported = true) →
      PropertiesToGeoData.loop es ⟨geo, GoMap.map acc⟩ =
        Outcome.ret (⟨geo, GoMap.map (applyStores storedValue es acc)⟩, none) := by
  intro es
  induction es with
  | nil => intro acc _; rfl
  | cons e es ih =>
    intro acc h
    obtain ⟨k, v⟩ := e
    have hrest : ∀ e ∈ es, e.2.supported = true := fun e he => h e (List.mem_cons_of_mem _ he)
    have hv : v.supported = true := h (k, v) (List.mem_cons_self _ _)
    cases v with
    | other t => simp [Any.supported] at hv
    | nil => simp [PropertiesToGeoData.loop, applyStores, storedValue, ih acc hrest]
    | bool b =>
      simp [PropertiesToGeoData.loop, assignProperty, GoMap.store, applyStores, storedValue,
        ih _ hrest]
    | int n =>
      simp [PropertiesToGeoData.loop, assignProperty, GoMap.store, applyStores, storedValue,
        ih _ hrest]
    | string x =>
      simp [PropertiesToGeoData.loop, assignProperty, GoMap.store, applyStores, storedValue,
        ih _ hrest]
    | float64 x =>
      simp [PropertiesToGeoData.loop, assignProperty, GoMap.store, applyStores, storedValue,
        ih _ hrest]

/-- On an allocated map the loop of `PropertiesToGeoData` always returns; it
returns an error exactly when an unsupported value is among the entries; the
geometry is kept and the map stays allocated. -/
theorem PropertiesToGeoData.loop_allocated (geo : Option Geometry) :
    ∀ (es : List (String × Any)) (acc : List (String × Option Value)),
      ∃ acc1 err,
        PropertiesToGeoData.loop es ⟨geo, GoMap.map acc⟩ =
          Outcome.ret (⟨geo, GoMap.map acc1⟩, err) ∧
        (err ≠ none ↔ ∃ e ∈ es, ∃ t, e.2 = Any.other t) := by
  intro es
  induction es with
  | nil => intro acc; exact ⟨acc, none, rfl, by simp⟩
  | cons e es ih =>
    intro acc
    obtain ⟨k, v⟩ := e
    cases v with
    | other t =>
      exact ⟨acc, some (Error.unsupportedProperty k t), rfl, by simp⟩
    | nil =>
      obtain ⟨acc1, err, h1, h2⟩ := ih acc
      exact ⟨acc1, err, by simp [PropertiesToGeoData.loop, h1], by simp [h2]⟩
    | bool b =>
      obtain ⟨acc1, err, h1, h2⟩ := ih (storeEntries k (some ⟨Kind.BoolValue b⟩) acc)
      exact ⟨acc1, err, by simp [PropertiesToGeoData.loop, assignProperty, GoMap.store, h1],
        by simp [h2]⟩
    | int n =>
      obtain ⟨acc1, err, h1, h2⟩ :=
        ih (storeEntries k (some ⟨Kind.NumberValue (Float64.ofInt n)⟩) acc)
      exact ⟨acc1, err, by simp [PropertiesToGeoData.loop, assignProperty, GoMap.store, h1],
        by simp [h2]⟩
    | string x =>
      obtain ⟨acc1, err, h1, h2⟩ := ih (storeEntries k (some ⟨Kind.StringValue x⟩) acc)
      exact ⟨acc1, err, by simp [PropertiesToGeoData.loop, assignProperty, GoMap.store, h1],
        by simp [h2]⟩
    | float64 x =>
      obtain ⟨acc1, err, h1, h2⟩ := ih (storeEntries k (some ⟨Kind.NumberValue x⟩) acc)
      exact ⟨acc1, err, by simp [PropertiesToGeoData.loop, assignProperty, GoMap.store, h1],
        by simp [h2]⟩

/-- On a nil map the loop of `PropertiesToGeoData` returns without error only
when every value is nil, and then leaves `gd` as it is. -/
theorem PropertiesToGeoData.loop_nil_map (geo : Option Geometry) :
    ∀ (es : List (String × Any)) (gd1 : GeoData),
      PropertiesToGeoData.loop es ⟨geo, GoMap.nil⟩ = Outcome.ret (gd1, none) →
      gd1 = ⟨geo, GoMap.nil⟩ ∧ ∀ e ∈ es, e.2 = Any.nil := by
  intro es
  induction es with
  | nil =>
    intro gd1 h
    simp [PropertiesToGeoData.loop] at h
    exact ⟨h.symm, by simp⟩
  | cons e es ih =>
    intro gd1 h
    obtain ⟨k, v⟩ := e
    cases v with
    | nil =>
      simp only [PropertiesToGeoData.loop] at h
      obtain ⟨h1, h2⟩ := ih gd1 h
      exact ⟨h1, by simpa using h2⟩
    | other t => simp [PropertiesToGeoData.loop] at h
    | bool b => simp [PropertiesToGeoData.loop, assignProperty, GoMap.store] at h
    | int n => simp [PropertiesToGeoData.loop, assignProperty, GoMap.store] at h
    | string x => simp [PropertiesToGeoData.loop, assignProperty, GoMap.store] at h
    | float64 x => simp [PropertiesToGeoData.loop, assignProperty, GoMap.store] at h

/-- With non-nil values only, the loop of `PropertiesToJSONMap` performs the
assignments of `jsonValue`. -/
theorem PropertiesToJSONMap.loop_nonnil :
    ∀ (src : List (String × Option Value)) (res : List (String × Any)),
      (∀ e ∈ src, e.2 ≠ none) →
      PropertiesToJSONMap.loop src res = Outcome.ret (GoMap.map (applyStores jsonValue src res)) := by
  intro src
  induction src with
  | nil => intro res _; rfl
  | cons e src ih =>
    intro res h
    obtain ⟨k, v⟩ := e
    have hrest : ∀ e ∈ src, e.2 ≠ none := fun e he => h e (List.mem_cons_of_mem _ he)
    cases v with
    | none => exact absurd rfl (h (k, none) (List.mem_cons_self _ _))
    | some v =>
      obtain ⟨kind⟩ := v
      cases kind <;>
        simp [PropertiesToJSONMap.loop, applyStores, jsonValue, ih _ hrest]

/-- What a successful `PropertiesToGeoData` leaves in an initially empty map:
under each key, the stored form of the value the feature has there. -/
theorem PropertiesToGeoData_lookup (f : Feature) (gd gd1 : GeoData)
    (hwf : f.Properties.WF) (hempty : gd.Properties.range = [])
    (hok : PropertiesToGeoData f gd = Outcome.ret (gd1, none)) :
    (∀ e ∈ f.Properties.range, e.2.supported = true) ∧
    ∀ k, gd1.Properties.lookup k = (f.Properties.lookup k).bind storedValue := by
  obtain ⟨geo, props⟩ := gd
  unfold PropertiesToGeoData at hok
  cases props with
  | nil =>
    obtain ⟨h1, h2⟩ := PropertiesToGeoData.loop_nil_map geo _ gd1 hok
    refine ⟨fun e he => by rw [h2 e he]; rfl, fun k => ?_⟩
    subst h1
    cases hl : f.Properties.lookup k with
    | none => simp [GoMap.lookup, GoMap.range, lookupEntries]
    | some v =>
      have hm := mem_of_lookupEntries k v _ hl
      have hv : v = Any.nil := h2 (k, v) hm
      subst hv
      simp [GoMap.lookup, GoMap.range, lookupEntries, storedValue]
  | map acc =>
    have hacc : acc = [] := hempty
    subst hacc
    obtain ⟨acc1, err, h1, h2⟩ := PropertiesToGeoData.loop_allocated geo f.Properties.range []
    have herr : err = none := by
      rw [h1] at hok
      simp only [Outcome.ret.injEq, Prod.mk.injEq] at hok
      exact hok.2
    have hsup : ∀ e ∈ f.Properties.range, e.2.supported = true := by
      intro e he
      by_contra hc
      have hf : e.2.supported = false := by simpa using hc
      obtain ⟨t, ht⟩ := (supported_eq_false_iff e.2).mp hf
      exact (h2.mpr ⟨e, he, t, ht⟩) herr
    rw [PropertiesToGeoData.loop_supported geo f.Properties.range [] hsup] at hok
    have hgd : gd1 = ⟨geo, GoMap.map (applyStores storedValue f.Properties.range [])⟩ := by
      simp only [Outcome.ret.injEq, Prod.mk.injEq] at hok
      exact hok.1.symm
    refine ⟨hsup, fun k => ?_⟩
    subst hgd
    show lookupEntries k (applyStores storedValue f.Properties.range []) =
      (lookupEntries k f.Properties.range).bind storedValue
    rw [lookupEntries_applyStores storedValue _ _ k hwf]
    simp [lookupEntries]

/-! ## C1: attribute round trip -/

/-- C1, as stated, fails on an `int` value: the property map with the single
entry `"id"` of `int` value 42, converted into an allocated empty `Properties`
map and back, holds the `float64` 42 (bits `0x4045000000000000`) under `"id"`,
which is not the `int` 42 the map started with. -/
theorem roundtrip_int_differs :
    PropertiesToGeoData ⟨"", none, GoMap.map [("id", Any.int 42)]⟩ ⟨none, GoMap.map []⟩ =
      Outcome.ret
        (⟨none, GoMap.map [("id", some ⟨Kind.NumberValue ⟨0x4045000000000000⟩⟩)]⟩, none) ∧
    PropertiesToJSONMap (GoMap.map [("id", some ⟨Kind.NumberValue ⟨0x4045000000000000⟩⟩)]) =
      Outcome.ret (GoMap.map [("id", Any.float64 ⟨0x4045000000000000⟩)]) ∧
    (GoMap.map [("id", Any.float64 ⟨0x4045000000000000⟩)]).lookup "id" ≠
      (GoMap.map [("id", Any.int 42)]).lookup "id" := by
  refine ⟨rfl, rfl, by decide⟩

/-- C1, amended: for every property map `m` whose values are all bool, number
(`int` or `float64`) or string, `PropertiesToGeoData` on a feature with
properties `m` into a GeoData whose `Properties` is an allocated empty map
succeeds, and `PropertiesToJSONMap` of the resulting `Properties` returns a map
that holds, under every key, the value of `m` with an `int` widened to its
`float64`; it equals `m` when `m` holds no `int`. -/
theorem PropertiesToGeoData_roundtrip (f : Feature) (geo : Option Geometry)
    (hwf : f.Properties.WF) (hscalar : ∀ e ∈ f.Properties.range, e.2.scalar = true) :
    ∃ gd1 res,
      PropertiesToGeoData f ⟨geo, GoMap.map []⟩ = Outcome.ret (gd1, none) ∧
      PropertiesToJSONMap gd1.Properties = Outcome.ret res ∧
      (∀ k, res.lookup k = (f.Properties.lookup k).map Any.widen) ∧
      ((∀ e ∈ f.Properties.range, ∀ n, e.2 ≠ Any.int n) →
        ∀ k, res.lookup k = f.Properties.lookup k) := by
  have hsup : ∀ e ∈ f.Properties.range, e.2.supported = true :=
    fun e he => supported_of_scalar e.2 (hscalar e he)
  have hnn : ∀ e ∈ applyStores storedValue f.Properties.range [], e.2 ≠ none := by
    intro e he
    rcases mem_applyStores storedValue _ _ e he with h | ⟨b, _, hb⟩
    · simp at h
    · cases b <;> simp [storedValue] at hb <;> simp [← hb]
  have hlook : ∀ k, lookupEntries k
      (applyStores jsonValue (applyStores storedValue f.Properties.range []) []) =
      (f.Properties.lookup k).map Any.widen := by
    intro k
    rw [lookupEntries_applyStores jsonValue _ _ k
      (nodup_keys_applyStores storedValue _ _ (by simp)),
      lookupEntries_applyStores storedValue _ _ k hwf]
    unfold GoMap.lookup
    cases hl : lookupEntries k f.Properties.range with
    | none => simp [lookupEntries]
    | some v =>
      have hv := hscalar (k, v) (mem_of_lookupEntries k v _ hl)
      cases v <;> simp [Any.scalar] at hv <;>
        simp [storedValue, jsonValue, Any.widen, lookupEntries]
  refine ⟨⟨geo, GoMap.map (applyStores storedValue f.Properties.range [])⟩,
    GoMap.map (applyStores jsonValue (applyStores storedValue f.Properties.range []) []),
    PropertiesToGeoData.loop_supported geo _ [] hsup,
    PropertiesToJSONMap.loop_nonnil _ [] hnn, hlook, ?_⟩
  intro hnoint k
  refine (hlook k).trans ?_
  cases hl : f.Properties.lookup k with
  | none => rfl
  | some v =>
    have hv := hnoint (k, v) (mem_of_lookupEntries k v _ hl)
    cases v <;> simp [Any.widen] at hv ⊢

/-- The round trip on a map with a bool, an `int` and a string. -/
theorem PropertiesToGeoData_roundtrip_witness :
    (GoMap.map [("open", Any.bool true), ("id", Any.int 42), ("name", Any.string "x")]).WF ∧
    ∃ gd1 res,
      PropertiesToGeoData
          ⟨"", none, GoMap.map [("open", Any.bool true), ("id", Any.int 42),
            ("name", Any.string "x")]⟩ ⟨none, GoMap.map []⟩ = Outcome.ret (gd1, none) ∧
      PropertiesToJSONMap gd1.Properties = Outcome.ret res ∧
      (∀ k, res.lookup k =
        ((GoMap.map [("open", Any.bool true), ("id", Any.int 42),
          ("name", Any.string "x")]).lookup k).map Any.widen) ∧
      ((∀ e ∈ (GoMap.map [("open", Any.bool true), ("id", Any.int 42),
          ("name", Any.string "x")]).range, ∀ n, e.2 ≠ Any.int n) →
        ∀ k, res.lookup k =
          (GoMap.map [("open", Any.bool true), ("id", Any.int 42),
            ("name", Any.string "x")]).lookup k) :=
  ⟨by decide,
    PropertiesToGeoData_roundtrip
      ⟨"", none, GoMap.map [("open", Any.bool true), ("id", Any.int 42),
        ("name", Any.string "x")]⟩ none (by decide) (by decide)⟩

/-! ## C2: when `PropertiesToGeoData` returns an error -/

/-- C2, as stated, fails on a nil `Properties` map: with the properties
`"a"` (a bool) and `"b"` (a nested object) visited in this order, the write of
`"a"` panics, so no error is returned although `"b"` has an unsupported type. -/
theorem PropertiesToGeoData_nil_map_panics :
    PropertiesToGeoData
        ⟨"", none, GoMap.map [("a", Any.bool true), ("b", Any.other "map[string]interface {}")]⟩
        ⟨none, GoMap.nil⟩ = Outcome.panic Panic.nilMapWrite ∧
    ∃ e ∈ (GoMap.map [("a", Any.bool true),
        ("b", Any.other "map[string]interface {}")]).range,
      ∃ t, e.2 = Any.other t := by
  refine ⟨rfl, ("b", Any.other "map[string]interface {}"), by simp [GoMap.range], _, rfl⟩

/-- C2, amended: when `gd.Properties` is an allocated (non-nil) map,
`PropertiesToGeoData` returns, and it returns an error if and only if at least
one property value of the feature has a type other than boolean, integer,
float, string or null. -/
theorem PropertiesToGeoData_error_iff (f : Feature) (gd : GeoData)
    (halloc : gd.Properties ≠ GoMap.nil) :
    ∃ gd1 err,
      PropertiesToGeoData f gd = Outcome.ret (gd1, err) ∧
      (err ≠ none ↔ ∃ e ∈ f.Properties.range, ∃ t, e.2 = Any.other t) := by
  obtain ⟨geo, props⟩ := gd
  cases props with
  | nil => exact absurd rfl halloc
  | map acc =>
    obtain ⟨acc1, err, h1, h2⟩ := PropertiesToGeoData.loop_allocated geo f.Properties.range acc
    exact ⟨_, err, h1, h2⟩

/-- The error criterion on an allocated map holding one entry already. -/
theorem PropertiesToGeoData_error_iff_witness :
    (GeoData.mk none (GoMap.map [("a", none)])).Properties ≠ GoMap.nil ∧
    ∃ gd1 err,
      PropertiesToGeoData
          ⟨"", none, GoMap.map [("a", Any.bool true), ("b", Any.other "[]interface {}")]⟩
          (GeoData.mk none (GoMap.map [("a", none)])) = Outcome.ret (gd1, err) ∧
      (err ≠ none ↔
        ∃ e ∈ (Feature.mk "" none
            (GoMap.map [("a", Any.bool true), ("b", Any.other "[]interface {}")])).Properties.range,
          ∃ t, e.2 = Any.other t) :=
  ⟨by decide,
    PropertiesToGeoData_error_iff
      ⟨"", none, GoMap.map [("a", Any.bool true), ("b", Any.other "[]interface {}")]⟩
      (GeoData.mk none (GoMap.map [("a", none)])) (by decide)⟩

/-! ## C3: what a successful `PropertiesToGeoData` stores -/

/-- C3: when `PropertiesToGeoData` succeeds on a GeoData whose `Properties` map
is initially empty, the resulting map has an entry under exactly the keys of
the feature whose value is not null; a boolean is stored as `BoolValue`, an
`int` as the `NumberValue` of its conversion to `float64`, a `float64` as
`NumberValue`, a string as `StringValue`; a null-valued key has no entry. -/
theorem PropertiesToGeoData_entries (f : Feature) (gd gd1 : GeoData)
    (hwf : f.Properties.WF) (hempty : gd.Properties.range = [])
    (hok : PropertiesToGeoData f gd = Outcome.ret (gd1, none)) :
    (∀ k, gd1.Properties.lookup k ≠ none ↔
      ∃ v, f.Properties.lookup k = some v ∧ v ≠ Any.nil) ∧
    (∀ k b, f.Properties.lookup k = some (Any.bool b) →
      gd1.Properties.lookup k = some (some ⟨Kind.BoolValue b⟩)) ∧
    (∀ k n, f.Properties.lookup k = some (Any.int n) →
      gd1.Properties.lookup k = some (some ⟨Kind.NumberValue (Float64.ofInt n)⟩)) ∧
    (∀ k x, f.Properties.lookup k = some (Any.float64 x) →
      gd1.Properties.lookup k = some (some ⟨Kind.NumberValue x⟩)) ∧
    (∀ k s, f.Properties.lookup k = some (Any.string s) →
      gd1.Properties.lookup k = some (some ⟨Kind.StringValue s⟩)) ∧
    (∀ k, f.Properties.lookup k = some Any.nil → gd1.Properties.lookup k = none) := by
  obtain ⟨hsup, hl⟩ := PropertiesToGeoData_lookup f gd gd1 hwf hempty hok
  refine ⟨fun k => ?_, ?_, ?_, ?_, ?_, ?_⟩
  · rw [hl k]
    cases hv : f.Properties.lookup k with
    | none => simp
    | some v =>
      have hs := hsup (k, v) (mem_of_lookupEntries k v _ hv)
      cases v <;> simp [Any.supported] at hs <;> simp [storedValue]
  · intro k b h; rw [hl k, h]; rfl
  · intro k n h; rw [hl k, h]; rfl
  · intro k x h; rw [hl k, h]; rfl
  · intro k s h; rw [hl k, h]; rfl
  · intro k h; rw [hl k, h]; rfl

/-- The stored entries for a feature with one value of each supported type
and a null: the `int` 3 is found as the number 3. -/
theorem PropertiesToGeoData_entries_witness :
    (GoMap.map [("b", Any.bool true), ("i", Any.int 3), ("z", Any.nil),
      ("s", Any.string "x")]).WF ∧
    (GeoData.mk none (GoMap.map [("s", some (Value.mk (Kind.StringValue "x"))),
        ("i", some (Value.mk (Kind.NumberValue (Float64.ofInt 3)))),
        ("b", some (Value.mk (Kind.BoolValue true)))])).Properties.lookup "i" =
      some (some (Value.mk (Kind.NumberValue (Float64.ofInt 3)))) :=
  ⟨by decide,
    (PropertiesToGeoData_entries
      (Feature.mk "" none (GoMap.map [("b", Any.bool true), ("i", Any.int 3), ("z", Any.nil),
        ("s", Any.string "x")]))
      (GeoData.mk none (GoMap.map []))
      (GeoData.mk none (GoMap.map [("s", some (Value.mk (Kind.StringValue "x"))),
        ("i", some (Value.mk (Kind.NumberValue (Float64.ofInt 3)))),
        ("b", some (Value.mk (Kind.BoolValue true)))]))
      (by decide) rfl rfl).2.2.1 "i" 3 rfl⟩

/-! ## C4: attribute errors short-circuit -/

/-- With an unsupported value among the entries, the loop of
`PropertiesToGeoData` either panics on a nil map or returns the error of an
unsupported entry, with the geometry kept. -/
theorem PropertiesToGeoData.loop_unsupported :
    ∀ (es : List (String × Any)) (gd : GeoData),
      (∃ e ∈ es, ∃ t, e.2 = Any.other t) →
      (gd.Properties = GoMap.nil ∧
        PropertiesToGeoData.loop es gd = Outcome.panic Panic.nilMapWrite) ∨
      ∃ gd1 k t,
        PropertiesToGeoData.loop es gd =
          Outcome.ret (gd1, some (Error.unsupportedProperty k t)) ∧
        gd1.Geometry = gd.Geometry ∧ (k, Any.other t) ∈ es := by
  intro es
  induction es with
  | nil => intro gd h; simp at h
  | cons e es ih =>
    intro gd h
    obtain ⟨k, v⟩ := e
    have hrest : (∀ t, v ≠ Any.other t) → ∃ e ∈ es, ∃ t, e.2 = Any.other t := by
      intro hv
      obtain ⟨e, he, t, ht⟩ := h
      rcases List.mem_cons.mp he with h1 | h1
      · subst h1
        exact absurd ht (hv t)
      · exact ⟨e, h1, t, ht⟩
    have hstep : ∀ (w : Value), (∀ t, v ≠ Any.other t) →
        (gd.Properties = GoMap.nil ∧
          assignProperty k w gd (PropertiesToGeoData.loop es) =
            Outcome.panic Panic.nilMapWrite) ∨
        ∃ gd1 k1 t,
          assignProperty k w gd (PropertiesToGeoData.loop es) =
            Outcome.ret (gd1, some (Error.unsupportedProperty k1 t)) ∧
          gd1.Geometry = gd.Geometry ∧ (k1, Any.other t) ∈ (k, v) :: es := by
      intro w hv
      obtain ⟨geo, props⟩ := gd
      cases props with
      | nil => exact Or.inl ⟨rfl, rfl⟩
      | map acc =>
        rcases ih ⟨geo, GoMap.map (storeEntries k (some w) acc)⟩ (hrest hv) with
          ⟨h1, _⟩ | ⟨gd1, k1, t, h1, h2, h3⟩
        · simp at h1
        · exact Or.inr ⟨gd1, k1, t, by simpa [assignProperty, GoMap.store] using h1, h2,
            List.mem_cons_of_mem _ h3⟩
    cases v with
    | other t =>
      exact Or.inr ⟨gd, k, t, rfl, rfl, List.mem_cons_self _ _⟩
    | nil =>
      rcases ih gd (hrest (by simp)) with h1 | ⟨gd1, k1, t, h1, h2, h3⟩
      · exact Or.inl ⟨h1.1, by simpa [PropertiesToGeoData.loop] using h1.2⟩
      · exact Or.inr ⟨gd1, k1, t, by simpa [PropertiesToGeoData.loop] using h1, h2,
          List.mem_cons_of_mem _ h3⟩
    | bool b => simpa [PropertiesToGeoData.loop] using hstep ⟨Kind.BoolValue b⟩ (by simp)
    | int n =>
      simpa [PropertiesToGeoData.loop] using
        hstep ⟨Kind.NumberValue (Float64.ofInt n)⟩ (by simp)
    | string x => simpa [PropertiesToGeoData.loop] using hstep ⟨Kind.StringValue x⟩ (by simp)
    | float64 x => simpa [PropertiesToGeoData.loop] using hstep ⟨Kind.NumberValue x⟩ (by simp)

/-- C4, as stated, fails on a nil `Properties` map: with the properties `"a"`
(a bool) and `"b"` (a nested object) visited in this order, the call panics on
the write of `"a"` and returns no error at all. -/
theorem GeoJSONFeatureToGeoData_nil_map_panics :
    (GeoJSONFeatureToGeoData
        ⟨"", some (GeomT.Point [⟨0⟩, ⟨0⟩]),
          GoMap.map [("a", Any.bool true), ("b", Any.other "map[string]interface {}")]⟩
        ⟨none, GoMap.nil⟩).out = Outcome.panic Panic.nilMapWrite := by
  rfl

/-- C4, amended: when `gd.Properties` is an allocated (non-nil) map, for every
feature having a property value of unsupported type and every geometry,
`GeoJSONFeatureToGeoData` returns the wrapped property-conversion error of an
unsupported entry, only `PropertiesToGeoData` is called (geometry conversion is
not attempted), and `gd.Geometry` is as before the call. -/
theorem GeoJSONFeatureToGeoData_short_circuit (f : Feature) (gd : GeoData)
    (halloc : gd.Properties ≠ GoMap.nil)
    (hbad : ∃ e ∈ f.Properties.range, ∃ t, e.2 = Any.other t) :
    ∃ gd1 k t,
      GeoJSONFeatureToGeoData f gd =
        ⟨[Call.PropertiesToGeoData],
          Outcome.ret (gd1, some (Error.wrap (Error.unsupportedProperty k t)
            "while converting feature properties to GeoData"))⟩ ∧
      (k, Any.other t) ∈ f.Properties.range ∧
      gd1.Geometry = gd.Geometry := by
  rcases PropertiesToGeoData.loop_unsupported f.Properties.range gd hbad with
    ⟨h1, _⟩ | ⟨gd1, k, t, h1, h2, h3⟩
  · exact absurd h1 halloc
  · refine ⟨gd1, k, t, ?_, h3, h2⟩
    unfold GeoJSONFeatureToGeoData PropertiesToGeoData
    rw [h1]

/-- The short circuit on a feature with a nested object and a point geometry. -/
theorem GeoJSONFeatureToGeoData_short_circuit_witness :
    (GeoData.mk none (GoMap.map [])).Properties ≠ GoMap.nil ∧
    ∃ gd1 k t,
      GeoJSONFeatureToGeoData
          (Feature.mk "" (some (GeomT.Point [⟨0⟩, ⟨0⟩]))
            (GoMap.map [("a", Any.bool true), ("b", Any.other "map[string]interface {}")]))
          (GeoData.mk none (GoMap.map [])) =
        ⟨[Call.PropertiesToGeoData],
          Outcome.ret (gd1, some (Error.wrap (Error.unsupportedProperty k t)
            "while converting feature properties to GeoData"))⟩ ∧
      (k, Any.other t) ∈
        (Feature.mk "" (some (GeomT.Point [⟨0⟩, ⟨0⟩]))
          (GoMap.map [("a", Any.bool true),
            ("b", Any.other "map[string]interface {}")])).Properties.range ∧
      gd1.Geometry = (GeoData.mk none (GoMap.map [])).Geometry :=
  ⟨by decide,
    GeoJSONFeatureToGeoData_short_circuit
      (Feature.mk "" (some (GeomT.Point [⟨0⟩, ⟨0⟩]))
        (GoMap.map [("a", Any.bool true), ("b", Any.other "map[string]interface {}")]))
      (GeoData.mk none (GoMap.map [])) (by decide)
      ⟨("b", Any.other "map[string]interface {}"), by simp [GoMap.range], _, rfl⟩⟩

/-! ## C5, C6, C9: the cell union of a point, of a malformed polygon, of an unknown kind -/

/-- C5: for every GeoData of kind POLYGON whose flat coordinate count is less
than 6 or odd, and for every region coverer, `GeoDataToFlatCellUnion` returns an
invalid-polygon error with a nil cell union, and calls neither the loop builder
nor the coverer. -/
theorem GeoDataToFlatCellUnion_polygon_invalid (K : S2Kernel) (geo : Geometry)
    (props : GoMap (Option Value)) (coverer : RegionCoverer)
    (hkind : geo.Type_ = Geometry_Type.Geometry_POLYGON)
    (hbad : geo.Coordinates.length < 6 ∨ geo.Coordinates.length % 2 = 1) :
    GeoDataToFlatCellUnion K ⟨some geo, props⟩ coverer =
      ⟨[], Outcome.ret ([], some (Error.new
        (if geo.Coordinates.length < 6 then "invalid polygons too few coordinates"
         else "invalid polygons odd coordinates number")))⟩ := by
  unfold GeoDataToFlatCellUnion
  simp only [hkind]
  by_cases h6 : geo.Coordinates.length < 6
  · simp [h6]
  · have hodd : geo.Coordinates.length % 2 = 1 := hbad.resolve_left h6
    simp [h6, hodd]

/-- A polygon of 7 coordinates is rejected for its odd count. -/
theorem GeoDataToFlatCellUnion_polygon_invalid_witness :
    (Geometry.mk Geometry_Type.Geometry_POLYGON
      [⟨1⟩, ⟨2⟩, ⟨3⟩, ⟨4⟩, ⟨5⟩, ⟨6⟩, ⟨7⟩] []).Coordinates.length % 2 = 1 ∧
    GeoDataToFlatCellUnion sampleKernel
        ⟨some (Geometry.mk Geometry_Type.Geometry_POLYGON
          [⟨1⟩, ⟨2⟩, ⟨3⟩, ⟨4⟩, ⟨5⟩, ⟨6⟩, ⟨7⟩] []), GoMap.nil⟩ ⟨18, 18, 0, 0⟩ =
      ⟨[], Outcome.ret ([], some (Error.new "invalid polygons odd coordinates number"))⟩ :=
  ⟨by decide,
    GeoDataToFlatCellUnion_polygon_invalid sampleKernel
      (Geometry.mk Geometry_Type.Geometry_POLYGON [⟨1⟩, ⟨2⟩, ⟨3⟩, ⟨4⟩, ⟨5⟩, ⟨6⟩, ⟨7⟩] [])
      GoMap.nil ⟨18, 18, 0, 0⟩ rfl (Or.inr (by decide))⟩

/-- C6: for every GeoData of kind POINT with coordinates (longitude, latitude)
and every region coverer, `GeoDataToFlatCellUnion` succeeds and returns exactly
one cell: the parent at level `coverer.MinLevel` of the cell id of the lat/lng
built from latitude `Coordinates[1]` and longitude `Coordinates[0]`; a coverer
with the same `MinLevel` gives the same result, whatever its other fields. -/
theorem GeoDataToFlatCellUnion_point (K : S2Kernel) (geo : Geometry)
    (props : GoMap (Option Value)) (coverer : RegionCoverer) (lng lat : Float64)
    (hkind : geo.Type_ = Geometry_Type.Geometry_POINT)
    (hcoords : geo.Coordinates = [lng, lat]) :
    GeoDataToFlatCellUnion K ⟨some geo, props⟩ coverer =
      ⟨[], Outcome.ret
        ([K.Parent (K.CellIDFromLatLng (K.LatLngFromDegrees lat lng)) coverer.MinLevel],
          none)⟩ ∧
    ∀ maxLevel levelMod maxCells,
      GeoDataToFlatCellUnion K ⟨some geo, props⟩
          ⟨coverer.MinLevel, maxLevel, levelMod, maxCells⟩ =
        GeoDataToFlatCellUnion K ⟨some geo, props⟩ coverer := by
  unfold GeoDataToFlatCellUnion
  simp [hkind, hcoords]

/-- The cell of a point under the sample kernel, at level 18. -/
theorem GeoDataToFlatCellUnion_point_witness :
    (Geometry.mk Geometry_Type.Geometry_POINT [⟨5⟩, ⟨7⟩] []).Coordinates = [⟨5⟩, ⟨7⟩] ∧
    GeoDataToFlatCellUnion sampleKernel
        ⟨some (Geometry.mk Geometry_Type.Geometry_POINT [⟨5⟩, ⟨7⟩] []), GoMap.nil⟩
        ⟨18, 30, 0, 8⟩ =
      ⟨[], Outcome.ret ([18017], none)⟩ :=
  ⟨rfl,
    (GeoDataToFlatCellUnion_point sampleKernel
      (Geometry.mk Geometry_Type.Geometry_POINT [⟨5⟩, ⟨7⟩] []) GoMap.nil ⟨18, 30, 0, 8⟩
      ⟨5⟩ ⟨7⟩ rfl rfl).1⟩

/-- C9: for every GeoData whose geometry kind is not POINT, POLYGON or
MULTIPOLYGON, `GeoDataToFlatCellUnion` returns an unsupported-type error and a
nil cell union, whatever the coordinates and the coverer, and calls neither the
loop builder nor the coverer. -/
theorem GeoDataToFlatCellUnion_unknown_kind (K : S2Kernel) (geo : Geometry)
    (props : GoMap (Option Value)) (coverer : RegionCoverer)
    (hpoint : geo.Type_ ≠ Geometry_Type.Geometry_POINT)
    (hpolygon : geo.Type_ ≠ Geometry_Type.Geometry_POLYGON)
    (hmulti : geo.Type_ ≠ Geometry_Type.Geometry_MULTIPOLYGON) :
    GeoDataToFlatCellUnion K ⟨some geo, props⟩ coverer =
      ⟨[], Outcome.ret ([], some (Error.new "unsupported data type"))⟩ := by
  unfold GeoDataToFlatCellUnion
  cases hk : geo.Type_ with
  | Geometry_POINT => exact absurd hk hpoint
  | Geometry_POLYGON => exact absurd hk hpolygon
  | Geometry_MULTIPOLYGON => exact absurd hk hmulti
  | unknown n => simp only [hk]

/-- A geometry of kind 3 is rejected. -/
theorem GeoDataToFlatCellUnion_unknown_kind_witness :
    (Geometry.mk (Geometry_Type.unknown 3) [⟨5⟩, ⟨7⟩] []).Type_ ≠
      Geometry_Type.Geometry_POINT ∧
    GeoDataToFlatCellUnion sampleKernel
        ⟨some (Geometry.mk (Geometry_Type.unknown 3) [⟨5⟩, ⟨7⟩] []), GoMap.nil⟩
        ⟨18, 30, 0, 8⟩ =
      ⟨[], Outcome.ret ([], some (Error.new "unsupported data type"))⟩ :=
  ⟨by decide,
    GeoDataToFlatCellUnion_unknown_kind sampleKernel
      (Geometry.mk (Geometry_Type.unknown 3) [⟨5⟩, ⟨7⟩] []) GoMap.nil ⟨18, 30, 0, 8⟩
      (by decide) (by decide) (by decide)⟩

/-! ## C7: the cell union of a polygon -/

theorem coordinatePairs_length :
    ∀ (cs : List Float64), (coordinatePairs cs).length = cs.length / 2
  | [] => rfl
  | [_] => by simp [coordinatePairs]
  | _ :: _ :: rest => by
    simp only [coordinatePairs, List.length_cons, coordinatePairs_length rest]
    omega

theorem coordinatePairs_getElem? :
    ∀ (i : Nat) (cs : List Float64) (x y : Float64),
      cs[2 * i]? = some x → cs[2 * i + 1]? = some y →
      (coordinatePairs cs)[i]? = some (x, y) := by
  intro i
  induction i with
  | zero =>
    intro cs x y hx hy
    match cs, hx, hy with
    | a :: b :: rest, hx, hy =>
      simp at hx hy
      simp [coordinatePairs, hx, hy]
  | succ i ih =>
    intro cs x y hx hy
    match cs, hx, hy with
    | [a], hx, hy => simp at hy
    | a :: b :: rest, hx, hy =>
      have hx1 : rest[2 * i]? = some x := by
        have : 2 * (i + 1) = 2 * i + 1 + 1 := by ring
        rw [this] at hx
        simpa using hx
      have hy1 : rest[2 * i + 1]? = some y := by
        have : 2 * (i + 1) + 1 = 2 * i + 1 + 1 + 1 := by ring
        rw [this] at hy
        simpa using hy
      simp [coordinatePairs, ih rest x y hx1 hy1]

/-- C7: for every GeoData of kind POLYGON whose coordinate count is even and at
least 6, `GeoDataToFlatCellUnion` builds the loop from the coordinates in their
input order (vertex `i` is the point of latitude `Coordinates[2i+1]` and
longitude `Coordinates[2i]`, one vertex per pair), returns the invalid-polygon
error if that loop is empty, full or contains the origin, and otherwise
returns `coverer.Covering` of the loop itself. -/
theorem GeoDataToFlatCellUnion_polygon (K : S2Kernel) (geo : Geometry)
    (props : GoMap (Option Value)) (coverer : RegionCoverer)
    (hkind : geo.Type_ = Geometry_Type.Geometry_POLYGON)
    (h6 : 6 ≤ geo.Coordinates.length) (heven : geo.Coordinates.length % 2 = 0) :
    (LoopFenceFromCoordinates K geo.Coordinates).vertices.length =
      geo.Coordinates.length / 2 ∧
    (∀ i x y, geo.Coordinates[2 * i]? = some x → geo.Coordinates[2 * i + 1]? = some y →
      (LoopFenceFromCoordinates K geo.Coordinates).vertices[i]? =
        some (K.PointFromLatLng (K.LatLngFromDegrees y x))) ∧
    ((K.IsEmpty (LoopFenceFromCoordinates K geo.Coordinates) = true ∨
        K.IsFull (LoopFenceFromCoordinates K geo.Coordinates) = true ∨
        K.ContainsOrigin (LoopFenceFromCoordinates K geo.Coordinates) = true) →
      GeoDataToFlatCellUnion K ⟨some geo, props⟩ coverer =
        ⟨[Call.LoopFenceFromCoordinates geo.Coordinates],
          Outcome.ret ([], some (Error.new "invalid polygons"))⟩) ∧
    (¬ (K.IsEmpty (LoopFenceFromCoordinates K geo.Coordinates) = true ∨
        K.IsFull (LoopFenceFromCoordinates K geo.Coordinates) = true ∨
        K.ContainsOrigin (LoopFenceFromCoordinates K geo.Coordinates) = true) →
      GeoDataToFlatCellUnion K ⟨some geo, props⟩ coverer =
        ⟨[Call.LoopFenceFromCoordinates geo.Coordinates,
            Call.Covering coverer (Region.loop (LoopFenceFromCoordinates K geo.Coordinates))],
          Outcome.ret
            (K.Covering coverer (Region.loop (LoopFenceFromCoordinates K geo.Coordinates)),
              none)⟩) := by
  have hlt : ¬ geo.Coordinates.length < 6 := by omega
  refine ⟨?_, ?_, ?_, ?_⟩
  · simp [LoopFenceFromCoordinates, LoopFenceFromPoints, coordinatePairs_length]
  · intro i x y hx hy
    simp [LoopFenceFromCoordinates, LoopFenceFromPoints,
      coordinatePairs_getElem? i geo.Coordinates x y hx hy]
  · intro hdeg
    have hd : degenerate K (LoopFenceFromCoordinates K geo.Coordinates) = true := by
      simpa [degenerate, or_assoc] using hdeg
    unfold GeoDataToFlatCellUnion
    simp [hkind, hlt, heven, hd]
  · intro hdeg
    have hd : degenerate K (LoopFenceFromCoordinates K geo.Coordinates) = false := by
      rw [not_or, not_or] at hdeg
      simp [degenerate, hdeg.1, hdeg.2.1, hdeg.2.2]
    unfold GeoDataToFlatCellUnion
    simp [hkind, hlt, heven, hd]

/-- A triangle under the sample kernel: three vertices in input order, covered
through the loop itself. -/
theorem GeoDataToFlatCellUnion_polygon_witness :
    6 ≤ (Geometry.mk Geometry_Type.Geometry_POLYGON
      [⟨1⟩, ⟨2⟩, ⟨3⟩, ⟨4⟩, ⟨5⟩, ⟨6⟩] []).Coordinates.length ∧
    (LoopFenceFromCoordinates sampleKernel
      (Geometry.mk Geometry_Type.Geometry_POLYGON
        [⟨1⟩, ⟨2⟩, ⟨3⟩, ⟨4⟩, ⟨5⟩, ⟨6⟩] []).Coordinates).vertices.length = 3 :=
  ⟨by decide,
    (GeoDataToFlatCellUnion_polygon sampleKernel
      (Geometry.mk Geometry_Type.Geometry_POLYGON [⟨1⟩, ⟨2⟩, ⟨3⟩, ⟨4⟩, ⟨5⟩, ⟨6⟩] [])
      GoMap.nil ⟨18, 18, 0, 0⟩ rfl (by decide) (by decide)).1⟩

/-! ## C8: the cell union of a multipolygon -/

/-- With valid rings only, the loop over the rings appends, ring after ring,
the covering of the rectangular bound of the ring's loop. -/
theorem GeoDataToFlatCellUnion.rings_valid (K : S2Kernel) (coverer : RegionCoverer) :
    ∀ (gs : List Geometry) (cu : CellUnion) (calls : List Call),
      (∀ g ∈ gs, validRing K g) →
      GeoDataToFlatCellUnion.rings K coverer gs cu calls =
        ⟨calls ++ gs.flatMap (fun g =>
            [Call.LoopFenceFromCoordinates g.Coordinates,
              Call.Covering coverer
                (Region.rect (K.RectBound (LoopFenceFromCoordinates K g.Coordinates)))]),
          (cu ++ gs.flatMap (fun g =>
            K.Covering coverer
              (Region.rect (K.RectBound (LoopFenceFromCoordinates K g.Coordinates)))),
            none)⟩ := by
  intro gs
  induction gs with
  | nil => intro cu calls _; simp [GeoDataToFlatCellUnion.rings]
  | cons g gs ih =>
    intro cu calls h
    obtain ⟨h6, heven, hd⟩ := h g (List.mem_cons_self _ _)
    have hlt : ¬ g.Coordinates.length < 6 := by omega
    have hrest : ∀ g ∈ gs, validRing K g := fun g hg => h g (List.mem_cons_of_mem _ hg)
    simp [GeoDataToFlatCellUnion.rings, hlt, heven, hd, ih _ _ hrest]

/-- With a ring that fails a check, the loop over the rings returns an error and
a nil cell union. -/
theorem GeoDataToFlatCellUnion.rings_invalid (K : S2Kernel) (coverer : RegionCoverer) :
    ∀ (gs : List Geometry) (cu : CellUnion) (calls : List Call),
      (∃ g ∈ gs, ¬ validRing K g) →
      ∃ calls1 msg,
        GeoDataToFlatCellUnion.rings K coverer gs cu calls =
          ⟨calls1, ([], some (Error.new msg))⟩ := by
  intro gs
  induction gs with
  | nil => intro cu calls h; simp at h
  | cons g gs ih =>
    intro cu calls h
    by_cases h6 : g.Coordinates.length < 6
    · exact ⟨calls, "invalid polygons too few coordinates",
        by simp [GeoDataToFlatCellUnion.rings, h6]⟩
    · by_cases heven : g.Coordinates.length % 2 = 0
      · by_cases hd : degenerate K (LoopFenceFromCoordinates K g.Coordinates) = true
        · exact ⟨calls ++ [Call.LoopFenceFromCoordinates g.Coordinates], "invalid polygons",
            by simp [GeoDataToFlatCellUnion.rings, h6, heven, hd]⟩
        · have hrest : ∃ g ∈ gs, ¬ validRing K g := by
            obtain ⟨g1, hg1, hbad⟩ := h
            rcases List.mem_cons.mp hg1 with h1 | h1
            · subst h1
              exact absurd ⟨by omega, heven, by simpa using hd⟩ hbad
            · exact ⟨g1, h1, hbad⟩
          obtain ⟨calls1, msg, h1⟩ := ih
            (cu ++ K.Covering coverer
              (Region.rect (K.RectBound (LoopFenceFromCoordinates K g.Coordinates))))
            (calls ++ [Call.LoopFenceFromCoordinates g.Coordinates,
              Call.Covering coverer
                (Region.rect (K.RectBound (LoopFenceFromCoordinates K g.Coordinates)))])
            hrest
          exact ⟨calls1, msg, by simpa [GeoDataToFlatCellUnion.rings, h6, heven, hd] using h1⟩
      · exact ⟨calls, "invalid polygons odd coordinates number",
          by simp [GeoDataToFlatCellUnion.rings, h6, heven]⟩

/-- C8: for every GeoData of kind MULTIPOLYGON: if every ring has an even
coordinate count of at least 6 and a non-degenerate loop,
`GeoDataToFlatCellUnion` returns the concatenation, in ring order, of
`coverer.Covering(RectBound(loop_i))` over the rings; if some ring fails
validation or is degenerate, it returns an error and a nil cell union. -/
theorem GeoDataToFlatCellUnion_multipolygon (K : S2Kernel) (geo : Geometry)
    (props : GoMap (Option Value)) (coverer : RegionCoverer)
    (hkind : geo.Type_ = Geometry_Type.Geometry_MULTIPOLYGON) :
    ((∀ g ∈ geo.Geometries, validRing K g) →
      GeoDataToFlatCellUnion K ⟨some geo, props⟩ coverer =
        ⟨geo.Geometries.flatMap (fun g =>
            [Call.LoopFenceFromCoordinates g.Coordinates,
              Call.Covering coverer
                (Region.rect (K.RectBound (LoopFenceFromCoordinates K g.Coordinates)))]),
          Outcome.ret
            (geo.Geometries.flatMap (fun g =>
              K.Covering coverer
                (Region.rect (K.RectBound (LoopFenceFromCoordinates K g.Coordinates)))),
              none)⟩) ∧
    ((∃ g ∈ geo.Geometries, ¬ validRing K g) →
      ∃ calls msg,
        GeoDataToFlatCellUnion K ⟨some geo, props⟩ coverer =
          ⟨calls, Outcome.ret ([], some (Error.new msg))⟩) := by
  constructor
  · intro h
    unfold GeoDataToFlatCellUnion
    simp [hkind, GeoDataToFlatCellUnion.rings_valid K coverer _ [] [] h]
  · intro h
    obtain ⟨calls, msg, h1⟩ := GeoDataToFlatCellUnion.rings_invalid K coverer _ [] [] h
    refine ⟨calls, msg, ?_⟩
    unfold GeoDataToFlatCellUnion
    simp [hkind, h1]

/-- Two valid rings under the sample kernel: the two coverings of the bounds,
in ring order, equal cells kept. -/
theorem GeoDataToFlatCellUnion_multipolygon_witness :
    (Geometry.mk Geometry_Type.Geometry_MULTIPOLYGON []
      [Geometry.mk Geometry_Type.Geometry_POLYGON [⟨1⟩, ⟨2⟩, ⟨3⟩, ⟨4⟩, ⟨5⟩, ⟨6⟩] [],
        Geometry.mk Geometry_Type.Geometry_POLYGON
          [⟨1⟩, ⟨2⟩, ⟨3⟩, ⟨4⟩, ⟨5⟩, ⟨6⟩, ⟨7⟩, ⟨8⟩] []]).Type_ =
      Geometry_Type.Geometry_MULTIPOLYGON ∧
    (GeoDataToFlatCellUnion sampleKernel
      ⟨some (Geometry.mk Geometry_Type.Geometry_MULTIPOLYGON []
        [Geometry.mk Geometry_Type.Geometry_POLYGON [⟨1⟩, ⟨2⟩, ⟨3⟩, ⟨4⟩, ⟨5⟩, ⟨6⟩] [],
          Geometry.mk Geometry_Type.Geometry_POLYGON
            [⟨1⟩, ⟨2⟩, ⟨3⟩, ⟨4⟩, ⟨5⟩, ⟨6⟩, ⟨7⟩, ⟨8⟩] []]), GoMap.nil⟩
      ⟨18, 18, 0, 0⟩).calls.length = 4 :=
  ⟨rfl,
    congrArg (fun r => r.calls.length)
      ((GeoDataToFlatCellUnion_multipolygon sampleKernel
        (Geometry.mk Geometry_Type.Geometry_MULTIPOLYGON []
          [Geometry.mk Geometry_Type.Geometry_POLYGON [⟨1⟩, ⟨2⟩, ⟨3⟩, ⟨4⟩, ⟨5⟩, ⟨6⟩] [],
            Geometry.mk Geometry_Type.Geometry_POLYGON
              [⟨1⟩, ⟨2⟩, ⟨3⟩, ⟨4⟩, ⟨5⟩, ⟨6⟩, ⟨7⟩, ⟨8⟩] []])
        GoMap.nil ⟨18, 18, 0, 0⟩ rfl).1 (by decide))⟩

/-! ## C10: `GeoToGeoData` -/

/-- C10: `GeoToGeoData` succeeds if and only if the external geometry is a
Point; on success `gd.Geometry` is a fresh Geometry of kind POINT whose
coordinates are exactly the point's raw coordinate values; for every other
geometry it returns an unsupported-type error and leaves `gd` unchanged;
`gd.Properties` is never modified. -/
theorem GeoToGeoData_spec (g : Option GeomT) (gd : GeoData) :
    ((GeoToGeoData g gd).2 = none ↔ ∃ flatCoords, g = some (GeomT.Point flatCoords)) ∧
    (∀ flatCoords, g = some (GeomT.Point flatCoords) →
      (GeoToGeoData g gd).1.Geometry =
        some (Geometry.mk Geometry_Type.Geometry_POINT flatCoords [])) ∧
    ((∀ flatCoords, g ≠ some (GeomT.Point flatCoords)) →
      GeoToGeoData g gd = (gd, some (Error.unsupportedGeoType (GeomT.typeName g)))) ∧
    (GeoToGeoData g gd).1.Properties = gd.Properties := by
  cases g with
  | none => simp [GeoToGeoData]
  | some t => cases t <;> simp [GeoToGeoData]

/-! ## C11, C12: `PointsToGeoJSONPolyLines` -/

/-- Over points only, the loop of `PointsToGeoJSONPolyLines` appends the
coordinates of the elements in order. -/
theorem PointsToGeoJSONPolyLines.loop_points :
    ∀ (geos : List GeoData) (flatCoords : List Float64),
      (∀ g ∈ geos, ∃ geo, g.Geometry = some geo ∧
        geo.Type_ = Geometry_Type.Geometry_POINT) →
      PointsToGeoJSONPolyLines.loop geos flatCoords =
        Outcome.ret (Sum.inl (flatCoords ++ geos.flatMap GeoData.coordinates)) := by
  intro geos
  induction geos with
  | nil => intro flatCoords _; simp [PointsToGeoJSONPolyLines.loop]
  | cons g geos ih =>
    intro flatCoords h
    obtain ⟨geo, hg, hk⟩ := h g (List.mem_cons_self _ _)
    have hrest := fun g1 (h1 : g1 ∈ geos) => h g1 (List.mem_cons_of_mem _ h1)
    simp [PointsToGeoJSONPolyLines.loop, hg, hk, ih _ hrest, GeoData.coordinates]

/-- Over elements that all have a geometry, one of them not a point, the loop
of `PointsToGeoJSONPolyLines` returns the unsupported-geometry error. -/
theorem PointsToGeoJSONPolyLines.loop_other :
    ∀ (geos : List GeoData) (flatCoords : List Float64),
      (∀ g ∈ geos, g.Geometry.isSome = true) →
      (∃ g ∈ geos, ∃ geo, g.Geometry = some geo ∧
        geo.Type_ ≠ Geometry_Type.Geometry_POINT) →
      PointsToGeoJSONPolyLines.loop geos flatCoords =
        Outcome.ret (Sum.inr (Error.new "unsupported geometry")) := by
  intro geos
  induction geos with
  | nil => intro flatCoords _ h; simp at h
  | cons g geos ih =>
    intro flatCoords hgeo h
    have hsome := hgeo g (List.mem_cons_self _ _)
    cases hg : g.Geometry with
    | none => simp [hg] at hsome
    | some geo =>
      by_cases hk : geo.Type_ = Geometry_Type.Geometry_POINT
      · have hrest : ∃ g1 ∈ geos, ∃ geo1, g1.Geometry = some geo1 ∧
            geo1.Type_ ≠ Geometry_Type.Geometry_POINT := by
          obtain ⟨g1, h1, geo1, h2, h3⟩ := h
          rcases List.mem_cons.mp h1 with h4 | h4
          · subst h4
            rw [hg] at h2
            cases h2
            exact absurd hk h3
          · exact ⟨g1, h4, geo1, h2, h3⟩
        simp [PointsToGeoJSONPolyLines.loop, hg, hk,
          ih _ (fun g1 h1 => hgeo g1 (List.mem_cons_of_mem _ h1)) hrest]
      · cases hk1 : geo.Type_ with
        | Geometry_POINT => exact absurd hk1 hk
        | Geometry_POLYGON => simp [PointsToGeoJSONPolyLines.loop, hg, hk1]
        | Geometry_MULTIPOLYGON => simp [PointsToGeoJSONPolyLines.loop, hg, hk1]
        | unknown n => simp [PointsToGeoJSONPolyLines.loop, hg, hk1]

/-- C11: for every list of GeoData (each with a geometry),
`PointsToGeoJSONPolyLines` returns an error if and only if the list contains at
least one element whose geometry kind is not POINT, and the error is then the
unsupported-geometry error; the empty list is not an error. -/
theorem PointsToGeoJSONPolyLines_error_iff (geos : List GeoData)
    (hgeo : ∀ g ∈ geos, g.Geometry.isSome = true) :
    ((∃ err, PointsToGeoJSONPolyLines geos = Outcome.ret (Sum.inr err)) ↔
      ∃ g ∈ geos, ∃ geo, g.Geometry = some geo ∧
        geo.Type_ ≠ Geometry_Type.Geometry_POINT) ∧
    (∀ err, PointsToGeoJSONPolyLines geos = Outcome.ret (Sum.inr err) →
      err = Error.new "unsupported geometry") ∧
    PointsToGeoJSONPolyLines [] = Outcome.ret (Sum.inl (Feature.mk "" none GoMap.nil)) := by
  have hiff : (∃ err, PointsToGeoJSONPolyLines geos = Outcome.ret (Sum.inr err)) →
      (∃ g ∈ geos, ∃ geo, g.Geometry = some geo ∧
        geo.Type_ ≠ Geometry_Type.Geometry_POINT) := by
    intro herr
    by_contra hnone
    have hall : ∀ g ∈ geos, ∃ geo, g.Geometry = some geo ∧
        geo.Type_ = Geometry_Type.Geometry_POINT := by
      intro g hg
      have hs := hgeo g hg
      cases hgg : g.Geometry with
      | none => simp [hgg] at hs
      | some geo =>
        refine ⟨geo, rfl, ?_⟩
        by_contra hk
        exact hnone ⟨g, hg, geo, hgg, hk⟩
    obtain ⟨err, he⟩ := herr
    cases geos with
    | nil => simp [PointsToGeoJSONPolyLines] at he
    | cons g0 rest =>
      simp only [PointsToGeoJSONPolyLines,
        PointsToGeoJSONPolyLines.loop_points (g0 :: rest) [] hall] at he
      cases hp : PropertiesToJSONMap g0.Properties with
      | panic p => simp [hp] at he
      | ret props => simp [hp] at he
  have hback : (∃ g ∈ geos, ∃ geo, g.Geometry = some geo ∧
        geo.Type_ ≠ Geometry_Type.Geometry_POINT) →
      PointsToGeoJSONPolyLines geos =
        Outcome.ret (Sum.inr (Error.new "unsupported geometry")) := by
    intro h
    cases geos with
    | nil => simp at h
    | cons g0 rest =>
      simp only [PointsToGeoJSONPolyLines,
        PointsToGeoJSONPolyLines.loop_other (g0 :: rest) [] hgeo h]
  refine ⟨⟨hiff, fun h => ⟨_, hback h⟩⟩, ?_, rfl⟩
  intro err he
  have h1 := hback (hiff ⟨err, he⟩)
  rw [h1] at he
  simp only [Outcome.ret.injEq, Sum.inr.injEq] at he
  exact he.symm

/-- A point followed by a polygon: the unsupported-geometry error. -/
theorem PointsToGeoJSONPolyLines_error_iff_witness :
    (∀ g ∈ [GeoData.mk (some (Geometry.mk Geometry_Type.Geometry_POINT [⟨1⟩, ⟨2⟩] []))
          GoMap.nil,
        GeoData.mk (some (Geometry.mk Geometry_Type.Geometry_POLYGON [] [])) GoMap.nil],
      g.Geometry.isSome = true) ∧
    ∀ err,
      PointsToGeoJSONPolyLines
          [GeoData.mk (some (Geometry.mk Geometry_Type.Geometry_POINT [⟨1⟩, ⟨2⟩] []))
            GoMap.nil,
           GeoData.mk (some (Geometry.mk Geometry_Type.Geometry_POLYGON [] [])) GoMap.nil] =
        Outcome.ret (Sum.inr err) →
      err = Error.new "unsupported geometry" :=
  ⟨by decide,
    (PointsToGeoJSONPolyLines_error_iff
      [GeoData.mk (some (Geometry.mk Geometry_Type.Geometry_POINT [⟨1⟩, ⟨2⟩] [])) GoMap.nil,
       GeoData.mk (some (Geometry.mk Geometry_Type.Geometry_POLYGON [] [])) GoMap.nil]
      (by decide)).2.1⟩

/-- C12: for every list of POINT GeoData, the feature that
`PointsToGeoJSONPolyLines` hands to the marshaller is, for a non-empty list, a
single line-string whose flat coordinates are the concatenation of the
elements' coordinates in input order, with the properties that
`PropertiesToJSONMap` returns for the first element (which it does when that
element's values are non-nil); for the empty list, a feature with no geometry
and no properties. -/
theorem PointsToGeoJSONPolyLines_feature (geos : List GeoData)
    (hpoint : ∀ g ∈ geos, ∃ geo, g.Geometry = some geo ∧
      geo.Type_ = Geometry_Type.Geometry_POINT) :
    (geos = [] →
      PointsToGeoJSONPolyLines geos =
        Outcome.ret (Sum.inl (Feature.mk "" none GoMap.nil))) ∧
    (∀ g0 rest props, geos = g0 :: rest →
      PropertiesToJSONMap g0.Properties = Outcome.ret props →
      PointsToGeoJSONPolyLines geos =
        Outcome.ret (Sum.inl (Feature.mk ""
          (some (GeomT.LineString (geos.flatMap GeoData.coordinates))) props))) ∧
    (∀ g0 rest, geos = g0 :: rest → (∀ e ∈ g0.Properties.range, e.2 ≠ none) →
      ∃ props, PropertiesToJSONMap g0.Properties = Outcome.ret props) := by
  refine ⟨?_, ?_, ?_⟩
  · intro h
    subst h
    rfl
  · intro g0 rest props h hp
    subst h
    simp only [PointsToGeoJSONPolyLines,
      PointsToGeoJSONPolyLines.loop_points (g0 :: rest) [] hpoint, hp, List.nil_append]
  · intro g0 rest _ hnn
    exact ⟨_, PropertiesToJSONMap.loop_nonnil g0.Properties.range [] hnn⟩

/-- Two points with different properties: one line-string through both, with
the properties of the first. -/
theorem PointsToGeoJSONPolyLines_feature_witness :
    PointsToGeoJSONPolyLines
        [GeoData.mk (some (Geometry.mk Geometry_Type.Geometry_POINT [⟨1⟩, ⟨2⟩] []))
          (GoMap.map [("a", some (Value.mk (Kind.BoolValue true)))]),
         GeoData.mk (some (Geometry.mk Geometry_Type.Geometry_POINT [⟨3⟩, ⟨4⟩] []))
          (GoMap.map [("b", some (Value.mk (Kind.StringValue "x")))])] =
      Outcome.ret (Sum.inl (Feature.mk ""
        (some (GeomT.LineString [⟨1⟩, ⟨2⟩, ⟨3⟩, ⟨4⟩]))
        (GoMap.map [("a", Any.bool true)]))) :=
  (PointsToGeoJSONPolyLines_feature
    [GeoData.mk (some (Geometry.mk Geometry_Type.Geometry_POINT [⟨1⟩, ⟨2⟩] []))
      (GoMap.map [("a", some (Value.mk (Kind.BoolValue true)))]),
     GeoData.mk (some (Geometry.mk Geometry_Type.Geometry_POINT [⟨3⟩, ⟨4⟩] []))
      (GoMap.map [("b", some (Value.mk (Kind.StringValue "x")))])]
    (by
      intro g hg
      simp only [List.mem_cons, List.mem_singleton, List.not_mem_nil, or_false] at hg
      rcases hg with h | h <;> subst h <;> exact ⟨_, rfl, rfl⟩)).2.1 _ _ _ rfl rfl

/-! ## C15: `PropertiesToJSONMap` -/

/-- With non-nil values and distinct keys, `PropertiesToJSONMap` returns the map
that holds under each key the `jsonValue` of the source value. -/
theorem PropertiesToJSONMap_lookup (src : GoMap (Option Value)) (hwf : src.WF)
    (hnn : ∀ e ∈ src.range, e.2 ≠ none) :
    ∃ res, PropertiesToJSONMap src = Outcome.ret res ∧
      ∀ k, res.lookup k = (src.lookup k).bind jsonValue := by
  refine ⟨GoMap.map (applyStores jsonValue src.range []),
    PropertiesToJSONMap.loop_nonnil src.range [] hnn, fun k => ?_⟩
  show lookupEntries k (applyStores jsonValue src.range []) =
    (lookupEntries k src.range).bind jsonValue
  rw [lookupEntries_applyStores jsonValue _ _ k hwf]
  simp [lookupEntries]

/-- C15: for every attribute map whose values are non-nil, `PropertiesToJSONMap`
returns; the result has an entry under exactly the keys whose value kind is
Number, String or Bool, holding the carried float, string or boolean; an entry
of any other kind (null, struct, list, or no kind set) leaves no entry. -/
theorem PropertiesToJSONMap_lenient (src : GoMap (Option Value)) (hwf : src.WF)
    (hnn : ∀ e ∈ src.range, e.2 ≠ none) :
    ∃ res, PropertiesToJSONMap src = Outcome.ret res ∧
      (∀ k x, src.lookup k = some (some ⟨Kind.NumberValue x⟩) →
        res.lookup k = some (Any.float64 x)) ∧
      (∀ k x, src.lookup k = some (some ⟨Kind.StringValue x⟩) →
        res.lookup k = some (Any.string x)) ∧
      (∀ k x, src.lookup k = some (some ⟨Kind.BoolValue x⟩) →
        res.lookup k = some (Any.bool x)) ∧
      (∀ k, res.lookup k ≠ none ↔
        ∃ v, src.lookup k = some (some v) ∧
          ((∃ x, v.Kind = Kind.NumberValue x) ∨ (∃ x, v.Kind = Kind.StringValue x) ∨
            (∃ x, v.Kind = Kind.BoolValue x))) ∧
      (∀ k v, src.lookup k = some (some v) →
        (v.Kind = Kind.NullValue ∨ v.Kind = Kind.StructValue ∨ v.Kind = Kind.ListValue ∨
          v.Kind = Kind.unset) →
        res.lookup k = none) := by
  obtain ⟨res, hres, hl⟩ := PropertiesToJSONMap_lookup src hwf hnn
  refine ⟨res, hres, ?_, ?_, ?_, ?_, ?_⟩
  · intro k x h; rw [hl k, h]; rfl
  · intro k x h; rw [hl k, h]; rfl
  · intro k x h; rw [hl k, h]; rfl
  · intro k
    rw [hl k]
    cases hs : src.lookup k with
    | none => simp
    | some v =>
      cases v with
      | none => simp [jsonValue]
      | some v =>
        obtain ⟨kind⟩ := v
        cases kind <;> simp [jsonValue]
  · intro k v h hk
    rw [hl k, h]
    obtain ⟨kind⟩ := v
    rcases hk with h1 | h1 | h1 | h1 <;> simp only at h1 <;> subst h1 <;> rfl

/-- A map with a number, a null, a struct and a value without kind: only the
number is kept. -/
theorem PropertiesToJSONMap_lenient_witness :
    (GoMap.map [("n", some (Value.mk (Kind.NumberValue ⟨7⟩))),
      ("z", some (Value.mk Kind.NullValue)), ("s", some (Value.mk Kind.StructValue)),
      ("u", some (Value.mk Kind.unset))]).WF ∧
    ∃ res,
      PropertiesToJSONMap
          (GoMap.map [("n", some (Value.mk (Kind.NumberValue ⟨7⟩))),
            ("z", some (Value.mk Kind.NullValue)), ("s", some (Value.mk Kind.StructValue)),
            ("u", some (Value.mk Kind.unset))]) = Outcome.ret res ∧
      res.lookup "n" = some (Any.float64 ⟨7⟩) ∧ res.lookup "s" = none :=
  ⟨by decide,
    (PropertiesToJSONMap_lenient
      (GoMap.map [("n", some (Value.mk (Kind.NumberValue ⟨7⟩))),
        ("z", some (Value.mk Kind.NullValue)), ("s", some (Value.mk Kind.StructValue)),
        ("u", some (Value.mk Kind.unset))])
      (by decide) (by decide)).imp
      (fun _ h => ⟨h.1, h.2.1 "n" ⟨7⟩ rfl,
        h.2.2.2.2.2 "s" (Value.mk Kind.StructValue) rfl (Or.inr (Or.inl rfl))⟩)⟩

/-! ## C13: `ToGeoJSONFeatureCollection` -/

/-- Over elements that have a geometry and non-nil attribute values, the loop
of `ToGeoJSONFeatureCollection` appends one feature per element, in order. -/
theorem ToGeoJSONFeatureCollection.loop_features :
    ∀ (geos : List GeoData) (fs : List Feature),
      (∀ g ∈ geos, g.Geometry.isSome = true) →
      (∀ g ∈ geos, ∀ e ∈ g.Properties.range, e.2 ≠ none) →
      ToGeoJSONFeatureCollection.loop geos fs =
        Outcome.ret ⟨fs ++ geos.map (fun g =>
          Feature.mk "" (g.Geometry.bind featureGeometry)
            (GoMap.map (applyStores jsonValue g.Properties.range [])))⟩ := by
  intro geos
  induction geos with
  | nil => intro fs _ _; simp [ToGeoJSONFeatureCollection.loop]
  | cons g geos ih =>
    intro fs hgeo hnn
    have hs := hgeo g (List.mem_cons_self _ _)
    have hp : PropertiesToJSONMap g.Properties =
        Outcome.ret (GoMap.map (applyStores jsonValue g.Properties.range [])) :=
      PropertiesToJSONMap.loop_nonnil g.Properties.range [] (hnn g (List.mem_cons_self _ _))
    cases hg : g.Geometry with
    | none => simp [hg] at hs
    | some geo =>
      simp [ToGeoJSONFeatureCollection.loop, hg, hp,
        ih _ (fun g1 h1 => hgeo g1 (List.mem_cons_of_mem _ h1))
          (fun g1 h1 => hnn g1 (List.mem_cons_of_mem _ h1))]

/-- C13: for every list of GeoData (each with a geometry and non-nil attribute
values), the feature collection that `ToGeoJSONFeatureCollection` hands to the
marshaller has exactly one feature per input element, in input order; the
`i`-th feature's geometry is a point with the element's coordinates for POINT,
a polygon with a single ring whose end offset is the full coordinate count for
POLYGON, and a multi-polygon with one single-ring polygon per stored ring, in
ring order, for MULTIPOLYGON; its properties are what `PropertiesToJSONMap`
returns for the element's properties. -/
theorem ToGeoJSONFeatureCollection_features (geos : List GeoData)
    (hgeo : ∀ g ∈ geos, g.Geometry.isSome = true)
    (hnn : ∀ g ∈ geos, ∀ e ∈ g.Properties.range, e.2 ≠ none) :
    ∃ fc, ToGeoJSONFeatureCollection geos = Outcome.ret fc ∧
      fc.Features.length = geos.length ∧
      ∀ (i : Nat) (g : GeoData), geos[i]? = some g →
        ∃ (geo : Geometry) (props : GoMap Any) (feat : Feature),
          g.Geometry = some geo ∧
          PropertiesToJSONMap g.Properties = Outcome.ret props ∧
          fc.Features[i]? = some feat ∧
          feat.Properties = props ∧
          (geo.Type_ = Geometry_Type.Geometry_POINT →
            feat.Geometry = some (GeomT.Point geo.Coordinates)) ∧
          (geo.Type_ = Geometry_Type.Geometry_POLYGON →
            feat.Geometry = some (GeomT.Polygon geo.Coordinates [geo.Coordinates.length])) ∧
          (geo.Type_ = Geometry_Type.Geometry_MULTIPOLYGON →
            feat.Geometry = some (GeomT.MultiPolygon
              (geo.Geometries.map (fun ring =>
                (ring.Coordinates, [ring.Coordinates.length]))))) := by
  refine ⟨_, (ToGeoJSONFeatureCollection.loop_features geos [] hgeo hnn), by simp, ?_⟩
  intro i g hi
  have hmem : g ∈ geos := List.getElem?_mem hi
  have hs := hgeo g hmem
  cases hg : g.Geometry with
  | none => simp [hg] at hs
  | some geo =>
    refine ⟨geo, GoMap.map (applyStores jsonValue g.Properties.range []),
      Feature.mk "" (featureGeometry geo)
        (GoMap.map (applyStores jsonValue g.Properties.range [])),
      rfl, PropertiesToJSONMap.loop_nonnil g.Properties.range [] (hnn g hmem), ?_, rfl,
      ?_, ?_, ?_⟩
    · simp [List.getElem?_map, hi, hg]
    · intro hk; simp [featureGeometry, hk]
    · intro hk; simp [featureGeometry, hk]
    · intro hk; simp [featureGeometry, hk]

/-- A point and a polygon: two features, in order. -/
theorem ToGeoJSONFeatureCollection_features_witness :
    (∀ g ∈ [GeoData.mk (some (Geometry.mk Geometry_Type.Geometry_POINT [⟨1⟩, ⟨2⟩] []))
          (GoMap.map [("a", some (Value.mk (Kind.BoolValue true)))]),
        GeoData.mk (some (Geometry.mk Geometry_Type.Geometry_POLYGON
          [⟨1⟩, ⟨2⟩, ⟨3⟩, ⟨4⟩, ⟨5⟩, ⟨6⟩] [])) GoMap.nil],
      g.Geometry.isSome = true) ∧
    ∃ fc,
      ToGeoJSONFeatureCollection
          [GeoData.mk (some (Geometry.mk Geometry_Type.Geometry_POINT [⟨1⟩, ⟨2⟩] []))
            (GoMap.map [("a", some (Value.mk (Kind.BoolValue true)))]),
           GeoData.mk (some (Geometry.mk Geometry_Type.Geometry_POLYGON
            [⟨1⟩, ⟨2⟩, ⟨3⟩, ⟨4⟩, ⟨5⟩, ⟨6⟩] [])) GoMap.nil] = Outcome.ret fc ∧
      fc.Features.length = 2 :=
  ⟨by decide,
    (ToGeoJSONFeatureCollection_features
      [GeoData.mk (some (Geometry.mk Geometry_Type.Geometry_POINT [⟨1⟩, ⟨2⟩] []))
        (GoMap.map [("a", some (Value.mk (Kind.BoolValue true)))]),
       GeoData.mk (some (Geometry.mk Geometry_Type.Geometry_POLYGON
        [⟨1⟩, ⟨2⟩, ⟨3⟩, ⟨4⟩, ⟨5⟩, ⟨6⟩] [])) GoMap.nil]
      (by decide) (by decide)).imp (fun _ h => ⟨h.1, h.2.1⟩)⟩

/-! ## The conversion `float64(n)` is exact up to `2 ^ 53` -/

theorem ilog2_spec : ∀ (fuel a : Nat), 0 < a → a < 2 ^ fuel →
    2 ^ ilog2 fuel a ≤ a ∧ a < 2 ^ (ilog2 fuel a + 1) := by
  intro fuel
  induction fuel with
  | zero => intro a h0 h; simp at h; omega
  | succ fuel ih =>
    intro a h0 h
    unfold ilog2
    by_cases h2 : a < 2
    · simp [h2]; omega
    · simp only [h2, if_false]
      have hd : 0 < a / 2 := by omega
      have hlt : a / 2 < 2 ^ fuel := by
        rw [pow_succ] at h; omega
      obtain ⟨h3, h4⟩ := ih (a / 2) hd hlt
      rw [pow_succ] at h4
      constructor
      · rw [pow_succ]; omega
      · rw [pow_succ, pow_succ]; omega

theorem Float64.toRat_fields (neg : Bool) (E M : Nat) (hE0 : 0 < E) (hE : E < 2047)
    (hM : M < 2 ^ 52) :
    Float64.toRat ⟨(if neg then 2 ^ 63 else 0) + E * 2 ^ 52 + M⟩ =
      (if neg then -1 else 1) * (((2 ^ 52 + M) * 2 ^ E : Nat) : ℚ) / 2 ^ 1075 := by
  have h1 : ((if neg then 2 ^ 63 else 0) + E * 2 ^ 52 + M) / 2 ^ 52 % 2 ^ 11 = E := by
    cases neg <;> simp only [if_true, if_false, Bool.false_eq_true] <;> omega
  have h2 : ((if neg then 2 ^ 63 else 0) + E * 2 ^ 52 + M) % 2 ^ 52 = M := by
    cases neg <;> simp only [if_true, if_false, Bool.false_eq_true] <;> omega
  have h3 : ((if neg then 2 ^ 63 else 0) + E * 2 ^ 52 + M) / 2 ^ 63 % 2 =
      if neg then 1 else 0 := by
    cases neg <;> simp only [if_true, if_false, Bool.false_eq_true] <;> omega
  have hE1 : E ≠ 0 := by omega
  have hE2 : E ≠ 2047 := by omega
  simp only [Float64.toRat, h1, h2, h3, hE1, hE2, if_false]
  cases neg <;> simp
  ring


theorem Float64.toRat_ofMagnitude (neg : Bool) (a : Nat) (h0 : 0 < a) (h : a ≤ 2 ^ 53) :
    (Float64.ofMagnitude neg a).toRat = (if neg then -1 else 1) * (a : ℚ) := by
  rcases Nat.lt_or_eq_of_le h with hlt | heq
  · have h64 : a < 2 ^ 64 := lt_trans hlt (by norm_num)
    obtain ⟨hlo, hhi⟩ := ilog2_spec 64 a h0 h64
    have he : ilog2 64 a ≤ 52 := by
      by_contra hc
      have h53 : 2 ^ 53 ≤ 2 ^ ilog2 64 a := Nat.pow_le_pow_right (by norm_num) (by omega)
      omega
    have hsplit : 2 ^ ilog2 64 a * 2 ^ (52 - ilog2 64 a) = 2 ^ 52 := by
      rw [← pow_add]
      congr 1
      omega
    have hsplit1 : 2 ^ (ilog2 64 a + 1) * 2 ^ (52 - ilog2 64 a) = 2 ^ 53 := by
      rw [← pow_add]
      congr 1
      omega
    have hpos : 0 < 2 ^ (52 - ilog2 64 a) := Nat.pos_pow_of_pos _ (by norm_num)
    have hA1 : 2 ^ 52 ≤ a * 2 ^ (52 - ilog2 64 a) := by
      rw [← hsplit]
      exact Nat.mul_le_mul_right _ hlo
    have hA2 : a * 2 ^ (52 - ilog2 64 a) < 2 ^ 53 := by
      rw [← hsplit1]
      exact Nat.mul_lt_mul_of_pos_right hhi hpos
    have hkey : (2 ^ 52 + (a * 2 ^ (52 - ilog2 64 a) - 2 ^ 52)) * 2 ^ (ilog2 64 a + 1023) =
        a * 2 ^ 1075 := by
      have hsum : 52 - ilog2 64 a + (ilog2 64 a + 1023) = 1075 := by omega
      rw [Nat.add_sub_cancel' hA1, Nat.mul_assoc, ← pow_add, hsum]
    have hbits : Float64.ofMagnitude neg a =
        ⟨(if neg then 2 ^ 63 else 0) + (ilog2 64 a + 1023) * 2 ^ 52 +
          (a * 2 ^ (52 - ilog2 64 a) - 2 ^ 52)⟩ := by
      unfold Float64.ofMagnitude
      rw [if_neg (Nat.pos_iff_ne_zero.mp h0)]
      dsimp only
      rw [if_pos he]
    rw [hbits, Float64.toRat_fields neg _ _ (by omega) (by omega) (by omega), hkey]
    simp only [Nat.cast_mul, Nat.cast_pow, Nat.cast_ofNat]
    rw [mul_div_assoc, mul_div_assoc, div_self (pow_ne_zero _ two_ne_zero), mul_one]
  · subst heq
    have hbits : Float64.ofMagnitude neg (2 ^ 53) =
        ⟨(if neg then 2 ^ 63 else 0) + 1076 * 2 ^ 52 + 0⟩ := by
      cases neg <;> rfl
    have hkey : (2 ^ 52 + 0) * 2 ^ 1076 = 2 ^ 53 * 2 ^ 1075 := by
      rw [Nat.add_zero, ← pow_add, ← pow_add]
    rw [hbits, Float64.toRat_fields neg 1076 0 (by norm_num) (by norm_num) (by norm_num),
      hkey]
    simp only [Nat.cast_mul, Nat.cast_pow, Nat.cast_ofNat]
    rw [mul_div_assoc, mul_div_assoc, div_self (pow_ne_zero _ two_ne_zero), mul_one]

theorem Float64.toRat_ofInt (n : Int) (h : n.natAbs ≤ 2 ^ 53) :
    (Float64.ofInt n).toRat = (n : ℚ) := by
  obtain ⟨m, rfl | rfl⟩ := Int.eq_nat_or_neg n
  · unfold Float64.ofInt
    rcases Nat.eq_zero_or_pos m with rfl | hm
    · simp [Float64.ofMagnitude, Float64.toRat]
    · rw [Int.natAbs_ofNat] at h ⊢
      rw [Float64.toRat_ofMagnitude _ _ hm h]
      have hneg : ¬ ((m : ℤ) < 0) := by omega
      simp [hneg]
  · unfold Float64.ofInt
    rcases Nat.eq_zero_or_pos m with rfl | hm
    · simp [Float64.ofMagnitude, Float64.toRat]
    · rw [Int.natAbs_neg, Int.natAbs_ofNat] at h ⊢
      rw [Float64.toRat_ofMagnitude _ _ hm h]
      have hneg : (-(m : ℤ) < 0) := by omega
      simp [hneg]

/-! ## C14: normalize, then denormalize, a point feature -/

/-- Storing scalar property values and reading them back gives non-nil stored
values and, under each key, the value with an `int` widened. -/
theorem roundtrip_entries (es : List (String × Any)) (hnd : (es.map Prod.fst).Nodup)
    (hscalar : ∀ e ∈ es, e.2.scalar = true) :
    (∀ e ∈ applyStores storedValue es [], e.2 ≠ none) ∧
    ∀ k, lookupEntries k (applyStores jsonValue (applyStores storedValue es []) []) =
      (lookupEntries k es).map Any.widen := by
  constructor
  · intro e he
    rcases mem_applyStores storedValue _ _ e he with h | ⟨b, _, hb⟩
    · simp at h
    · cases b <;> simp [storedValue] at hb <;> simp [← hb]
  · intro k
    rw [lookupEntries_applyStores jsonValue _ _ k
      (nodup_keys_applyStores storedValue _ _ (by simp)),
      lookupEntries_applyStores storedValue _ _ k hnd]
    cases hl : lookupEntries k es with
    | none => simp [lookupEntries]
    | some v =>
      have hv := hscalar (k, v) (mem_of_lookupEntries k v _ hl)
      cases v <;> simp [Any.scalar] at hv <;>
        simp [storedValue, jsonValue, Any.widen, lookupEntries]

/-- C14, as stated, fails on a large `int`: the point feature with the property
`"id"` of `int` value `2 ^ 53 + 1` comes back with the `float64` of bits
`0x4340000000000000` under `"id"`, which is the number `2 ^ 53`, not a float of
equal value. -/
theorem roundtrip_large_int_differs :
    (GeoJSONFeatureToGeoData
        (Feature.mk "" (some (GeomT.Point [⟨0⟩, ⟨0⟩]))
          (GoMap.map [("id", Any.int 9007199254740993)]))
        (GeoData.mk none (GoMap.map []))).out =
      Outcome.ret
        (GeoData.mk (some (Geometry.mk Geometry_Type.Geometry_POINT [⟨0⟩, ⟨0⟩] []))
          (GoMap.map [("id", some (Value.mk (Kind.NumberValue ⟨0x4340000000000000⟩)))]),
          none) ∧
    ToGeoJSONFeatureCollection
        [GeoData.mk (some (Geometry.mk Geometry_Type.Geometry_POINT [⟨0⟩, ⟨0⟩] []))
          (GoMap.map [("id", some (Value.mk (Kind.NumberValue ⟨0x4340000000000000⟩)))])] =
      Outcome.ret ⟨[Feature.mk "" (some (GeomT.Point [⟨0⟩, ⟨0⟩]))
        (GoMap.map [("id", Any.float64 ⟨0x4340000000000000⟩)])]⟩ ∧
    Float64.toRat ⟨0x4340000000000000⟩ = 9007199254740992 ∧
    Float64.toRat ⟨0x4340000000000000⟩ ≠ ((9007199254740993 : Int) : ℚ) := by
  have hval : Float64.toRat ⟨0x4340000000000000⟩ = 9007199254740992 := by
    have h := Float64.toRat_ofInt 9007199254740992 (by norm_num)
    have hb : Float64.ofInt 9007199254740992 = ⟨0x4340000000000000⟩ := by rfl
    rw [hb] at h
    rw [h]
    norm_num
  refine ⟨rfl, rfl, hval, ?_⟩
  rw [hval]
  norm_num

/-- C14, amended: for every Point feature `f` whose properties are all bool,
number (`int` or `float64`) or string, `GeoJSONFeatureToGeoData` into a GeoData
whose `Properties` is an allocated empty map succeeds, and the single feature
that `ToGeoJSONFeatureCollection` builds from that GeoData is a point with the
same coordinates and with the same keys as `f`; a bool, `float64` or string
value comes back unchanged and an `int` value `n` comes back as the `float64`
of its conversion, which is the float of equal value when `|n| ≤ 2 ^ 53`. -/
theorem GeoJSONFeature_roundtrip (f : Feature) (geo0 : Option Geometry)
    (flatCoords : List Float64)
    (hpoint : f.Geometry = some (GeomT.Point flatCoords))
    (hwf : f.Properties.WF) (hscalar : ∀ e ∈ f.Properties.range, e.2.scalar = true) :
    ∃ (gd1 : GeoData) (feat : Feature),
      (GeoJSONFeatureToGeoData f ⟨geo0, GoMap.map []⟩).out = Outcome.ret (gd1, none) ∧
      ToGeoJSONFeatureCollection [gd1] = Outcome.ret ⟨[feat]⟩ ∧
      feat.Geometry = some (GeomT.Point flatCoords) ∧
      (∀ k, f.Properties.lookup k = none → feat.Properties.lookup k = none) ∧
      (∀ k v, f.Properties.lookup k = some v → (∀ n, v ≠ Any.int n) →
        feat.Properties.lookup k = some v) ∧
      (∀ k n, f.Properties.lookup k = some (Any.int n) →
        feat.Properties.lookup k = some (Any.float64 (Float64.ofInt n)) ∧
        (n.natAbs ≤ 2 ^ 53 → (Float64.ofInt n).toRat = (n : ℚ))) := by
  have hsup : ∀ e ∈ f.Properties.range, e.2.supported = true :=
    fun e he => supported_of_scalar e.2 (hscalar e he)
  obtain ⟨hnn, hlook⟩ := roundtrip_entries f.Properties.range hwf hscalar
  have hprops := PropertiesToGeoData.loop_supported geo0 f.Properties.range [] hsup
  have hnorm : (GeoJSONFeatureToGeoData f ⟨geo0, GoMap.map []⟩).out =
      Outcome.ret
        (GeoData.mk (some (Geometry.mk Geometry_Type.Geometry_POINT flatCoords []))
          (GoMap.map (applyStores storedValue f.Properties.range [])), none) := by
    unfold GeoJSONFeatureToGeoData PropertiesToGeoData
    rw [hprops]
    simp [GeoToGeoData, hpoint]
  have hcoll := ToGeoJSONFeatureCollection.loop_features
    [GeoData.mk (some (Geometry.mk Geometry_Type.Geometry_POINT flatCoords []))
      (GoMap.map (applyStores storedValue f.Properties.range []))] []
    (by simp) (by simpa [GoMap.range] using hnn)
  refine ⟨_, Feature.mk "" (some (GeomT.Point flatCoords))
    (GoMap.map (applyStores jsonValue (applyStores storedValue f.Properties.range []) [])),
    hnorm, ?_, rfl, ?_, ?_, ?_⟩
  · unfold ToGeoJSONFeatureCollection
    rw [hcoll]
    simp [featureGeometry, Geometry.Type_, Geometry.Coordinates, GoMap.range]
  · intro k hk
    refine (hlook k).trans ?_
    unfold GoMap.lookup at hk
    rw [hk]
    rfl
  · intro k v hk hv
    refine (hlook k).trans ?_
    unfold GoMap.lookup at hk
    rw [hk]
    cases v <;> simp [Any.widen] at hv ⊢
  · intro k n hk
    refine ⟨?_, Float64.toRat_ofInt n⟩
    refine (hlook k).trans ?_
    unfold GoMap.lookup at hk
    rw [hk]
    rfl

/-- The round trip of a point feature with a string and an `int` property. -/
theorem GeoJSONFeature_roundtrip_witness :
    (GoMap.map [("id", Any.string "42"), ("n", Any.int 42)]).WF ∧
    ∃ (gd1 : GeoData) (feat : Feature),
      (GeoJSONFeatureToGeoData
        (Feature.mk "f1" (some (GeomT.Point [⟨1⟩, ⟨2⟩]))
          (GoMap.map [("id", Any.string "42"), ("n", Any.int 42)]))
        ⟨none, GoMap.map []⟩).out = Outcome.ret (gd1, none) ∧
      ToGeoJSONFeatureCollection [gd1] = Outcome.ret ⟨[feat]⟩ ∧
      feat.Geometry = some (GeomT.Point [⟨1⟩, ⟨2⟩]) ∧
      feat.Properties.lookup "id" = some (Any.string "42") ∧
      feat.Properties.lookup "n" = some (Any.float64 (Float64.ofInt 42)) ∧
      (Float64.ofInt 42).toRat = 42 :=
  ⟨by decide,
    (GeoJSONFeature_roundtrip
      (Feature.mk "f1" (some (GeomT.Point [⟨1⟩, ⟨2⟩]))
        (GoMap.map [("id", Any.string "42"), ("n", Any.int 42)]))
      none [⟨1⟩, ⟨2⟩] rfl (by decide) (by decide)).imp
      (fun _ h => h.imp (fun _ h1 =>
        ⟨h1.1, h1.2.1, h1.2.2.1,
          h1.2.2.2.2.1 "id" (Any.string "42") rfl (by simp),
          (h1.2.2.2.2.2 "n" 42 rfl).1,
          by simpa using (h1.2.2.2.2.2 "n" 42 rfl).2 (by norm_num)⟩))⟩

/-! ## C16: what a failed normalization leaves in `gd` -/

/-- Whenever the loop of `PropertiesToGeoData` returns, the geometry is kept
and so is every entry under a key that is not among the visited ones. -/
theorem PropertiesToGeoData.loop_frame :
    ∀ (es : List (String × Any)) (gd gd1 : GeoData) (err : Option Error),
      PropertiesToGeoData.loop es gd = Outcome.ret (gd1, err) →
      gd1.Geometry = gd.Geometry ∧
      ∀ k, lookupEntries k es = none → gd1.Properties.lookup k = gd.Properties.lookup k := by
  intro es
  induction es with
  | nil =>
    intro gd gd1 err h
    simp only [PropertiesToGeoData.loop, Outcome.ret.injEq, Prod.mk.injEq] at h
    rw [← h.1]
    exact ⟨rfl, fun _ _ => rfl⟩
  | cons e es ih =>
    intro gd gd1 err h
    obtain ⟨k1, v⟩ := e
    have hkey : ∀ k, lookupEntries k ((k1, v) :: es) = none →
        k1 ≠ k ∧ lookupEntries k es = none := by
      intro k hk
      by_cases hk1 : k1 = k
      · simp [lookupEntries, hk1] at hk
      · exact ⟨hk1, by simpa [lookupEntries, hk1] using hk⟩
    have hstep : ∀ (w : Value),
        assignProperty k1 w gd (PropertiesToGeoData.loop es) = Outcome.ret (gd1, err) →
        gd1.Geometry = gd.Geometry ∧
        ∀ k, lookupEntries k ((k1, v) :: es) = none →
          gd1.Properties.lookup k = gd.Properties.lookup k := by
      intro w hw
      obtain ⟨geo, props⟩ := gd
      cases props with
      | nil => simp [assignProperty, GoMap.store] at hw
      | map acc =>
        simp only [assignProperty, GoMap.store] at hw
        obtain ⟨h1, h2⟩ := ih _ gd1 err hw
        refine ⟨h1, fun k hk => ?_⟩
        obtain ⟨hne, hnone⟩ := hkey k hk
        rw [h2 k hnone]
        show lookupEntries k (storeEntries k1 (some w) acc) = lookupEntries k acc
        rw [lookupEntries_storeEntries]
        simp [hne]
    cases v with
    | other t =>
      simp only [PropertiesToGeoData.loop, Outcome.ret.injEq, Prod.mk.injEq] at h
      rw [← h.1]
      exact ⟨rfl, fun _ _ => rfl⟩
    | nil =>
      simp only [PropertiesToGeoData.loop] at h
      obtain ⟨h1, h2⟩ := ih gd gd1 err h
      exact ⟨h1, fun k hk => h2 k (hkey k hk).2⟩
    | bool b => exact hstep _ (by simpa [PropertiesToGeoData.loop] using h)
    | int n => exact hstep _ (by simpa [PropertiesToGeoData.loop] using h)
    | string x => exact hstep _ (by simpa [PropertiesToGeoData.loop] using h)
    | float64 x => exact hstep _ (by simpa [PropertiesToGeoData.loop] using h)

/-- C16, as stated, fails: on a feature with the property `"a"` (a bool) and a
polygon geometry, `GeoJSONFeatureToGeoData` returns the unsupported-geometry
error, and the `Properties` map, empty before the call, holds `"a"` after it. -/
theorem GeoJSONFeatureToGeoData_error_keeps_writes :
    (GeoJSONFeatureToGeoData
        (Feature.mk "" (some (GeomT.Polygon [⟨0⟩, ⟨0⟩, ⟨1⟩, ⟨0⟩, ⟨1⟩, ⟨1⟩] [6]))
          (GoMap.map [("a", Any.bool true)]))
        (GeoData.mk none (GoMap.map []))).out =
      Outcome.ret
        (GeoData.mk none (GoMap.map [("a", some (Value.mk (Kind.BoolValue true)))]),
          some (Error.wrap (Error.unsupportedGeoType "*geom.Polygon")
            "while converting feature to GeoData")) ∧
    (GeoData.mk none
        (GoMap.map [("a", some (Value.mk (Kind.BoolValue true)))])).Properties.lookup "a" ≠
      (GeoData.mk none (GoMap.map [])).Properties.lookup "a" := by
  refine ⟨rfl, by decide⟩

/-- C16, amended: whenever `GeoJSONFeatureToGeoData` returns an error (from
property mapping or from an unsupported geometry kind), `gd.Geometry` is
unchanged and `gd` is as `PropertiesToGeoData` left it: the entries written for
the properties visited before the error stay, and every entry under a key that
is not a property key of the feature is unchanged. -/
theorem GeoJSONFeatureToGeoData_on_error (f : Feature) (gd gd1 : GeoData) (err : Error)
    (h : (GeoJSONFeatureToGeoData f gd).out = Outcome.ret (gd1, some err)) :
    gd1.Geometry = gd.Geometry ∧
    (∃ e0, PropertiesToGeoData f gd = Outcome.ret (gd1, e0)) ∧
    ∀ k, f.Properties.lookup k = none → gd1.Properties.lookup k = gd.Properties.lookup k := by
  have hleft : ∃ e0, PropertiesToGeoData f gd = Outcome.ret (gd1, e0) := by
    unfold GeoJSONFeatureToGeoData at h
    cases hp : PropertiesToGeoData f gd with
    | panic p => simp [hp] at h
    | ret r =>
      obtain ⟨gd2, e0⟩ := r
      cases e0 with
      | some e1 =>
        simp only [hp, Outcome.ret.injEq, Prod.mk.injEq] at h
        exact ⟨some e1, by rw [h.1]⟩
      | none =>
        simp only [hp] at h
        cases hg : f.Geometry with
        | none =>
          simp only [hg, GeoToGeoData, Outcome.ret.injEq, Prod.mk.injEq] at h
          exact ⟨none, by rw [h.1]⟩
        | some g =>
          cases g <;>
            simp only [hg, GeoToGeoData, Outcome.ret.injEq, Prod.mk.injEq] at h
          · exact absurd h.2 (by simp)
          all_goals exact ⟨none, by rw [h.1]⟩
  obtain ⟨e0, he0⟩ := hleft
  obtain ⟨h1, h2⟩ := PropertiesToGeoData.loop_frame f.Properties.range gd gd1 e0 he0
  exact ⟨h1, ⟨e0, he0⟩, h2⟩

/-- On the failing call above, the geometry is still nil and `"a"` was written. -/
theorem GeoJSONFeatureToGeoData_on_error_witness :
    (GeoData.mk none (GoMap.map [("a", some (Value.mk (Kind.BoolValue true)))])).Geometry =
      (GeoData.mk none (GoMap.map [])).Geometry ∧
    ∃ e0,
      PropertiesToGeoData
          (Feature.mk "" (some (GeomT.Polygon [⟨0⟩, ⟨0⟩, ⟨1⟩, ⟨0⟩, ⟨1⟩, ⟨1⟩] [6]))
            (GoMap.map [("a", Any.bool true)]))
          (GeoData.mk none (GoMap.map [])) =
        Outcome.ret
          (GeoData.mk none (GoMap.map [("a", some (Value.mk (Kind.BoolValue true)))]), e0) :=
  have h := GeoJSONFeatureToGeoData_on_error
    (Feature.mk "" (some (GeomT.Polygon [⟨0⟩, ⟨0⟩, ⟨1⟩, ⟨0⟩, ⟨1⟩, ⟨1⟩] [6]))
      (GoMap.map [("a", Any.bool true)]))
    (GeoData.mk none (GoMap.map []))
    (GeoData.mk none (GoMap.map [("a", some (Value.mk (Kind.BoolValue true)))]))
    (Error.wrap (Error.unsupportedGeoType "*geom.Polygon")
      "while converting feature to GeoData")
    rfl
  ⟨h.1, h.2.1⟩

/-! ## C17: a geometry of unknown kind in `ToGeoJSONFeatureCollection` -/

/-- C17, the code at the failing input: for a GeoData of kind 3 (none of POINT,
POLYGON, MULTIPOLYGON) `ToGeoJSONFeatureCollection` reports nothing; it appends
a feature with no geometry and hands the collection to the marshaller. -/
theorem ToGeoJSONFeatureCollection_unknown_kind :
    ToGeoJSONFeatureCollection
        [GeoData.mk (some (Geometry.mk (Geometry_Type.unknown 3) [⟨1⟩, ⟨2⟩] []))
          (GoMap.map [("a", some (Value.mk (Kind.BoolValue true)))])] =
      Outcome.ret ⟨[Feature.mk "" none (GoMap.map [("a", Any.bool true)])]⟩ := by
  rfl

/-! ## C18: the visiting order of the property keys -/

theorem lookupEntries_perm {α : Type} (k : String) (es1 es2 : List (String × α))
    (hperm : es1.Perm es2) (hnd : (es1.map Prod.fst).Nodup) :
    lookupEntries k es1 = lookupEntries k es2 := by
  have hnd2 : (es2.map Prod.fst).Nodup := (hperm.map Prod.fst).nodup_iff.mp hnd
  cases h1 : lookupEntries k es1 with
  | some v =>
    have hm := hperm.mem_iff.mp (mem_of_lookupEntries k v es1 h1)
    exact (lookupEntries_of_mem k v es2 hnd2 hm).symm
  | none =>
    cases h2 : lookupEntries k es2 with
    | none => rfl
    | some v =>
      have hm := hperm.mem_iff.mpr (mem_of_lookupEntries k v es2 h2)
      rw [lookupEntries_of_mem k v es1 hnd hm] at h1
      cases h1

/-- With nil values only, the loop of `PropertiesToGeoData` leaves `gd` as it
is and returns no error. -/
theorem PropertiesToGeoData.loop_all_nil :
    ∀ (es : List (String × Any)) (gd : GeoData),
      (∀ e ∈ es, e.2 = Any.nil) →
      PropertiesToGeoData.loop es gd = Outcome.ret (gd, none) := by
  intro es
  induction es with
  | nil => intro gd _; rfl
  | cons e es ih =>
    intro gd h
    obtain ⟨k, v⟩ := e
    have hv : v = Any.nil := h (k, v) (List.mem_cons_self _ _)
    subst hv
    simp only [PropertiesToGeoData.loop]
    exact ih gd (fun e he => h e (List.mem_cons_of_mem _ he))

/-- C18, as stated, fails: the same three properties, `"c"` a bool and `"a"`,
`"b"` of unsupported types, visited in two orders, give different errors and
different contents of `gd.Properties`. -/
theorem PropertiesToGeoData_order_matters :
    List.Perm
      [("c", Any.bool true), ("a", Any.other "[]interface {}"),
        ("b", Any.other "map[string]interface {}")]
      [("b", Any.other "map[string]interface {}"), ("c", Any.bool true),
        ("a", Any.other "[]interface {}")] ∧
    PropertiesToGeoData
        (Feature.mk "" none (GoMap.map [("c", Any.bool true),
          ("a", Any.other "[]interface {}"), ("b", Any.other "map[string]interface {}")]))
        (GeoData.mk none (GoMap.map [])) =
      Outcome.ret
        (GeoData.mk none (GoMap.map [("c", some (Value.mk (Kind.BoolValue true)))]),
          some (Error.unsupportedProperty "a" "[]interface {}")) ∧
    PropertiesToGeoData
        (Feature.mk "" none (GoMap.map [("b", Any.other "map[string]interface {}"),
          ("c", Any.bool true), ("a", Any.other "[]interface {}")]))
        (GeoData.mk none (GoMap.map [])) =
      Outcome.ret
        (GeoData.mk none (GoMap.map []),
          some (Error.unsupportedProperty "b" "map[string]interface {}")) ∧
    Error.unsupportedProperty "a" "[]interface {}" ≠
      Error.unsupportedProperty "b" "map[string]interface {}" := by
  refine ⟨?_, rfl, rfl, by decide⟩
  exact (List.Perm.cons _ (List.Perm.swap _ _ _)).trans (List.Perm.swap _ _ _)

/-- C18, amended: for every feature and every initial GeoData, whether
`PropertiesToGeoData` succeeds and, when it does, the resulting contents of
`gd.Properties` are the same whatever order the feature's property keys are
visited in; on an allocated map, whether an error is returned is the same in
every order too.  (Which error is returned, and what has been written when one
is returned, depend on the order.) -/
theorem PropertiesToGeoData_order_independent (f1 f2 : Feature) (gd : GeoData)
    (hperm : f1.Properties.range.Perm f2.Properties.range) (hwf : f1.Properties.WF) :
    (∀ gd1, PropertiesToGeoData f1 gd = Outcome.ret (gd1, none) →
      ∃ gd2, PropertiesToGeoData f2 gd = Outcome.ret (gd2, none) ∧
        gd2.Geometry = gd1.Geometry ∧
        ∀ k, gd2.Properties.lookup k = gd1.Properties.lookup k) ∧
    (gd.Properties ≠ GoMap.nil →
      ((∃ gd1 e, PropertiesToGeoData f1 gd = Outcome.ret (gd1, some e)) ↔
        ∃ gd2 e, PropertiesToGeoData f2 gd = Outcome.ret (gd2, some e))) := by
  have hwf2 : (f2.Properties.range.map Prod.fst).Nodup :=
    (hperm.map Prod.fst).nodup_iff.mp hwf
  have hbad : (∃ e ∈ f1.Properties.range, ∃ t, e.2 = Any.other t) ↔
      ∃ e ∈ f2.Properties.range, ∃ t, e.2 = Any.other t :=
    ⟨fun ⟨e, he, ht⟩ => ⟨e, hperm.mem_iff.mp he, ht⟩,
      fun ⟨e, he, ht⟩ => ⟨e, hperm.mem_iff.mpr he, ht⟩⟩
  obtain ⟨geo, props⟩ := gd
  unfold PropertiesToGeoData
  cases props with
  | nil =>
    refine ⟨fun gd1 h1 => ?_, fun h => absurd rfl h⟩
    obtain ⟨hgd, hnil⟩ := PropertiesToGeoData.loop_nil_map geo _ gd1 h1
    subst hgd
    exact ⟨_, PropertiesToGeoData.loop_all_nil _ _
      (fun e he => hnil e (hperm.mem_iff.mpr he)), rfl, fun _ => rfl⟩
  | map acc =>
    obtain ⟨acc1, err1, h1, hi1⟩ := PropertiesToGeoData.loop_allocated geo f1.Properties.range acc
    obtain ⟨acc2, err2, h2, hi2⟩ := PropertiesToGeoData.loop_allocated geo f2.Properties.range acc
    constructor
    · intro gd1 hok
      have herr1 : err1 = none := by
        rw [h1] at hok
        simp only [Outcome.ret.injEq, Prod.mk.injEq] at hok
        exact hok.2
      have hsup1 : ∀ e ∈ f1.Properties.range, e.2.supported = true := by
        intro e he
        by_contra hc
        have hf : e.2.supported = false := by simpa using hc
        obtain ⟨t, ht⟩ := (supported_eq_false_iff e.2).mp hf
        exact (hi1.mpr ⟨e, he, t, ht⟩) herr1
      have hsup2 : ∀ e ∈ f2.Properties.range, e.2.supported = true :=
        fun e he => hsup1 e (hperm.mem_iff.mpr he)
      rw [PropertiesToGeoData.loop_supported geo _ acc hsup1] at hok
      have hgd1 : gd1 = ⟨geo, GoMap.map (applyStores storedValue f1.Properties.range acc)⟩ := by
        simp only [Outcome.ret.injEq, Prod.mk.injEq] at hok
        exact hok.1.symm
      subst hgd1
      refine ⟨_, PropertiesToGeoData.loop_supported geo _ acc hsup2, rfl, fun k => ?_⟩
      show lookupEntries k (applyStores storedValue f2.Properties.range acc) =
        lookupEntries k (applyStores storedValue f1.Properties.range acc)
      rw [lookupEntries_applyStores storedValue _ _ k hwf2,
        lookupEntries_applyStores storedValue _ _ k hwf,
        lookupEntries_perm k _ _ hperm hwf]
    · intro _
      have e1 : (∃ gd1 e, PropertiesToGeoData.loop f1.Properties.range ⟨geo, GoMap.map acc⟩ =
          Outcome.ret (gd1, some e)) ↔ err1 ≠ none := by
        rw [h1]
        constructor
        · rintro ⟨gd1, e, he⟩
          simp only [Outcome.ret.injEq, Prod.mk.injEq] at he
          rw [he.2]
          simp
        · intro hne
          obtain ⟨e, he⟩ := Option.ne_none_iff_exists.mp hne
          exact ⟨_, e, by rw [he]⟩
      have e2 : (∃ gd2 e, PropertiesToGeoData.loop f2.Properties.range ⟨geo, GoMap.map acc⟩ =
          Outcome.ret (gd2, some e)) ↔ err2 ≠ none := by
        rw [h2]
        constructor
        · rintro ⟨gd2, e, he⟩
          simp only [Outcome.ret.injEq, Prod.mk.injEq] at he
          rw [he.2]
          simp
        · intro hne
          obtain ⟨e, he⟩ := Option.ne_none_iff_exists.mp hne
          exact ⟨_, e, by rw [he]⟩
      rw [e1, e2, hi1, hi2]
      exact hbad

/-- Two orders of a bool and an `int`: both succeed, with the same contents. -/
theorem PropertiesToGeoData_order_independent_witness :
    (GoMap.map [("a", Any.bool true), ("n", Any.int 1)]).WF ∧
    ∃ gd2,
      PropertiesToGeoData
          (Feature.mk "" none (GoMap.map [("n", Any.int 1), ("a", Any.bool true)]))
          (GeoData.mk none (GoMap.map [])) = Outcome.ret (gd2, none) ∧
      gd2.Geometry = none ∧
      ∀ k, gd2.Properties.lookup k =
        (GoMap.map [("n", some (Value.mk (Kind.NumberValue (Float64.ofInt 1)))),
          ("a", some (Value.mk (Kind.BoolValue true)))]).lookup k :=
  ⟨by decide,
    (PropertiesToGeoData_order_independent
      (Feature.mk "" none (GoMap.map [("a", Any.bool true), ("n", Any.int 1)]))
      (Feature.mk "" none (GoMap.map [("n", Any.int 1), ("a", Any.bool true)]))
      (GeoData.mk none (GoMap.map []))
      (List.Perm.swap _ _ _) (by decide)).1
      (GeoData.mk none
        (GoMap.map [("n", some (Value.mk (Kind.NumberValue (Float64.ofInt 1)))),
          ("a", some (Value.mk (Kind.BoolValue true)))]))
      rfl⟩

/-! ## C20: the POINT branch reads two coordinates unchecked -/

/-- C20: for every POINT GeoData with at least 2 coordinates
`GeoDataToFlatCellUnion` returns the cell of `Coordinates[1]` and
`Coordinates[0]` alone, whatever follows them; with fewer than 2 coordinates it
returns no error value but panics on the index 1. -/
theorem GeoDataToFlatCellUnion_point_indexing (K : S2Kernel) (geo : Geometry)
    (props : GoMap (Option Value)) (coverer : RegionCoverer)
    (hkind : geo.Type_ = Geometry_Type.Geometry_POINT) :
    (2 ≤ geo.Coordinates.length →
      ∃ c0 c1, geo.Coordinates[0]? = some c0 ∧ geo.Coordinates[1]? = some c1 ∧
        GeoDataToFlatCellUnion K ⟨some geo, props⟩ coverer =
          ⟨[], Outcome.ret
            ([K.Parent (K.CellIDFromLatLng (K.LatLngFromDegrees c1 c0)) coverer.MinLevel],
              none)⟩) ∧
    (geo.Coordinates.length < 2 →
      GeoDataToFlatCellUnion K ⟨some geo, props⟩ coverer =
        ⟨[], Outcome.panic (Panic.indexOutOfRange 1 geo.Coordinates.length)⟩) := by
  unfold GeoDataToFlatCellUnion
  constructor
  · intro hlen
    match hc : geo.Coordinates, hlen with
    | c0 :: c1 :: rest, _ => exact ⟨c0, c1, by simp, by simp, by simp [hkind, hc]⟩
  · intro hlen
    match hc : geo.Coordinates, hlen with
    | [], _ => simp [hkind, hc]
    | [c0], _ => simp [hkind, hc]

/-- A point stored with three coordinates gives the cell of a point with the
first two; a point stored with one coordinate panics. -/
theorem GeoDataToFlatCellUnion_point_indexing_witness :
    (Geometry.mk Geometry_Type.Geometry_POINT [⟨5⟩] []).Coordinates.length < 2 ∧
    GeoDataToFlatCellUnion sampleKernel
        ⟨some (Geometry.mk Geometry_Type.Geometry_POINT [⟨5⟩] []), GoMap.nil⟩
        ⟨18, 30, 0, 8⟩ =
      ⟨[], Outcome.panic (Panic.indexOutOfRange 1 1)⟩ :=
  ⟨by decide,
    (GeoDataToFlatCellUnion_point_indexing sampleKernel
      (Geometry.mk Geometry_Type.Geometry_POINT [⟨5⟩] []) GoMap.nil ⟨18, 30, 0, 8⟩ rfl).2
      (by decide)⟩

end Geodata
